import Mathlib

/-!
# RGW Redis lock and queue library (`rgwlib`)

A shallow embedding of the Lua function library that `loadLuaFunctions`
(`src/rgw/rgw_redis_common.cc`) installs in the key-value store, and of the
client functions of `src/rgw/rgw_redis_queue.cc` that call it.

* The store is a map from key names to entries (a string or a list, with an
  optional absolute expiry deadline in milliseconds).  A key whose deadline lies
  strictly before the clock is invisible to every command, as in the store.
* A library function is a `Script`: it reads the clock (frozen for the duration
  of one invocation), threads the store through the commands it issues and ends
  with a value or with a raised command error.  A raised error keeps the writes
  made before it.
* `FCALL name 1 key args...` always passes exactly one key, so `keys[1]` and
  `args[i]` appear here as ordinary parameters.
* Procedures the client calls but the library text does not define (`abort`,
  `ack`, `locked_ack`, `locked_read_multi`, `locked_ack_multi`) and the
  response decoding `do_redis_func` are modelled from the specification; each
  such definition says so in its comment.
* Times and integers are unbounded; the clock and the ttl are in milliseconds.
-/

namespace RgwRedis

/-! ## The key-value store -/

/-- A value stored under a key: a plain string or a list (head first). -/
inductive RVal where
  | str (s : String)
  | list (xs : List String)
deriving DecidableEq, Repr

/-- A key's entry: its value and, when the key is volatile, the absolute
deadline (milliseconds) after which the key no longer exists. -/
structure Entry where
  val : RVal
  expireAt : Option Int
deriving DecidableEq, Repr

/-- The key space. -/
abbrev Store := String → Option Entry

/-- The store with no key at all. -/
def Store.empty : Store := fun _ => none

/-- An entry is live at `now` unless the clock is strictly past its deadline. -/
def Entry.live (now : Int) (e : Entry) : Bool :=
  match e.expireAt with
  | none => true
  | some d => decide (now ≤ d)

/-- The owner cookie of a lock entry: its string value (a list has none). -/
def Entry.owner (e : Entry) : Option String :=
  match e.val with
  | .str c => some c
  | .list _ => none

/-- Key lookup as every command performs it: expired keys do not exist. -/
def lookupKey (s : Store) (now : Int) (k : String) : Option Entry :=
  match s k with
  | some e => if e.live now then some e else none
  | none => none

/-! ## Scripts -/

deriving instance DecidableEq for Except

/-- A server-side function body: given the clock and the store it yields a
value or a raised error, and the store it leaves behind. -/
def Script (α : Type) : Type := Int → Store → Except String α × Store

/-- Sequencing of scripts; a raised error stops the script and keeps the store
reached so far. -/
def Script.bind {α β : Type} (m : Script α) (f : α → Script β) : Script β :=
  fun now s =>
    match m now s with
    | (.ok a, s1) => f a now s1
    | (.error e, s1) => (.error e, s1)

instance : Monad Script where
  pure a := fun _ s => (.ok a, s)
  bind := Script.bind

/-- Error raised by a command applied to a key that holds another value type. -/
def wrongType : String :=
  "WRONGTYPE Operation against a key holding the wrong kind of value"

/-- Error raised by `SET ... PX` for a non-positive time to live. -/
def invalidExpire : String := "ERR invalid expire time in set command"

namespace redis

/-- `EXISTS key`: 1 when the key exists (any type), else 0. -/
def EXISTS (k : String) : Script Int := fun now s =>
  (.ok (if (lookupKey s now k).isSome then 1 else 0), s)

/-- `GET key`: the string value, nothing when the key is absent, an error
when the key holds a list. -/
def GET (k : String) : Script (Option String) := fun now s =>
  match lookupKey s now k with
  | none => (.ok none, s)
  | some e =>
    match e.val with
    | .str v => (.ok (some v), s)
    | .list _ => (.error wrongType, s)

/-- `SET key value PX ms`: overwrite the key (whatever it held) with the
string and the deadline `now + ms`; a non-positive `ms` is an error. -/
def SET_PX (k v : String) (ms : Int) : Script Unit := fun now s =>
  if ms ≤ 0 then (.error invalidExpire, s)
  else (.ok (), Function.update s k (some ⟨.str v, some (now + ms)⟩))

/-- `PEXPIRE key ms`: 0 when the key is absent; otherwise set the deadline to
`now + ms` and answer 1 (a deadline that is not in the future deletes the key). -/
def PEXPIRE (k : String) (ms : Int) : Script Int := fun now s =>
  match lookupKey s now k with
  | none => (.ok 0, s)
  | some e =>
    if ms ≤ 0 then (.ok 1, Function.update s k none)
    else (.ok 1, Function.update s k (some { e with expireAt := some (now + ms) }))

/-- `DEL key`: remove the key; answers the number of keys removed. -/
def DEL (k : String) : Script Int := fun now s =>
  match lookupKey s now k with
  | none => (.ok 0, s)
  | some _ => (.ok 1, Function.update s k none)

/-- The inclusive slice `[start, stop]` of a list, negative indices counting
from the end, out-of-range indices clamped (the `LRANGE` index rule). -/
def lrangeSlice (xs : List String) (start stop : Int) : List String :=
  let len : Int := xs.length
  let start := if start < 0 then max (start + len) 0 else start
  let stop := if stop < 0 then stop + len else stop
  if start > stop ∨ start ≥ len then []
  else
    let stop := if stop ≥ len then len - 1 else stop
    (xs.drop start.toNat).take (stop - start + 1).toNat

/-- `LRANGE key start stop`: the slice of the list, the empty array for an
absent key, an error when the key holds a string. -/
def LRANGE (k : String) (start stop : Int) : Script (List String) := fun now s =>
  match lookupKey s now k with
  | none => (.ok [], s)
  | some e =>
    match e.val with
    | .list xs => (.ok (lrangeSlice xs start stop), s)
    | .str _ => (.error wrongType, s)

end redis

/-! ## The Lua library `rgwlib` -/

/-- A value a library function hands back to the caller. -/
inductive LuaVal where
  | nil
  | num (n : Int)
  | str (s : String)
deriving DecidableEq, Repr

/-- Lua indexing `t[1]` of an array reply: its first element, or `nil`. -/
def LuaVal.first : List String → LuaVal
  | [] => .nil
  | x :: _ => .str x

namespace lerrorCodes

def EPERM : Int := 1
def ENOENT : Int := 2
def EBUSY : Int := 16
def EEXIST : Int := 17
def ENOMEM : Int := 12

end lerrorCodes

namespace rgwlib

/-- Lua `assert_lock(keys, args)` with `name = keys[1]`, `cookie = args[1]`. -/
def assert_lock (name cookie : String) : Script Int := do
  if (← redis.EXISTS name) = 1 then
    let existing_cookie ← redis.GET name
    if existing_cookie = some cookie then
      pure 0
    else
      pure (-lerrorCodes.EBUSY)
  else
    pure (-lerrorCodes.ENOENT)

/-- Lua `lock(keys, args)` with `name = keys[1]`, `cookie = args[1]`,
`timeout = args[2]`. -/
def lock (name cookie : String) (timeout : Int) : Script Int := do
  let lock_status ← assert_lock name cookie
  if lock_status = 0 then
    let _ ← redis.PEXPIRE name timeout
    pure 0
  else if lock_status = -lerrorCodes.ENOENT then
    let _ ← redis.SET_PX name cookie timeout
    pure 0
  else
    pure lock_status

/-- Lua `unlock(keys, args)` with `name = keys[1]`, `cookie = args[1]`. -/
def unlock (name cookie : String) : Script Int := do
  let lock_status ← assert_lock name cookie
  if lock_status = 0 then
    let _ ← redis.DEL name
    pure 0
  else
    pure lock_status

/-- Lua `read(keys)`: the last element of the list `"queue:" .. keys[1]`. -/
def read (key : String) : Script LuaVal := do
  let name := "queue:" ++ key
  let r ← redis.LRANGE name (-1) (-1)
  pure (LuaVal.first r)

/-- Lua `locked_read(keys, args)`.  The source calls `assert_lock(keys, args)`
with the caller's own tables, so the lock that is checked is the key
`keys[1]` itself. -/
def locked_read (key cookie : String) : Script LuaVal := do
  let name := "queue:" ++ key
  let lock_status ← assert_lock key cookie
  if lock_status = 0 then
    let r ← redis.LRANGE name (-1) (-1)
    pure (LuaVal.first r)
  else
    pure (LuaVal.num lock_status)

end rgwlib

/-! ## The client library (`rgw::redis`, `rgw::redisqueue`) -/

/-- The client's view of one procedure call (`rgw::redis::RedisResponse`). -/
structure RedisResponse where
  errorCode : Int
  errorMessage : String
  data : String
deriving DecidableEq, Repr

/-- Modelled from the spec: `do_redis_func` and `RedisResponse` are declared in
`rgw_redis_common.h`, which is not among the sources; this is the decoding of a
completed round-trip.  By the interface table a procedure answers a status
code, or a string or nothing: an integer reply is the status code and carries
no data, a string reply is the data with status 0, an empty reply is status 0
with empty data, and a raised error is an unexpected response, -EINVAL. -/
def do_redis_func (reply : Except String LuaVal) : RedisResponse :=
  match reply with
  | .ok (.num n) => ⟨n, "", ""⟩
  | .ok (.str d) => ⟨0, "", d⟩
  | .ok .nil => ⟨0, "", ""⟩
  | .error msg => ⟨-22, msg, ""⟩

namespace redisqueue

/-- Client `read(conn, name, res, y)`: the returned code and the value left in
the caller's `res` (assigned on both branches), with the store after the call. -/
def read (name : String) (now : Int) (s : Store) : (Int × String) × Store :=
  let out := rgwlib.read name now s
  let ret := do_redis_func out.1
  if ret.errorCode = 0 then ((ret.errorCode, ret.data), out.2)
  else ((ret.errorCode, ""), out.2)

/-- Client `locked_read(conn, name, lock_cookie, res, y)` (single message):
the returned code and the value left in the caller's `res` (assigned on both
branches), with the store after the call. -/
def locked_read (name lock_cookie : String) (now : Int) (s : Store) :
    (Int × String) × Store :=
  let out := rgwlib.locked_read name lock_cookie now s
  let ret := do_redis_func out.1
  if ret.errorCode = 0 then ((ret.errorCode, ret.data), out.2)
  else ((ret.errorCode, ""), out.2)

end redisqueue

/-- A store holding two committed messages of the queue `test_queue`
(`m1` committed first) and nothing else. -/
def queueStore : Store :=
  Function.update Store.empty "queue:test_queue" (some ⟨.list ["m2", "m1"], none⟩)

/-- The store after `lock("lock:test_queue", "mycookie", 500)` at time 0 on
`queueStore`, as the queue tests set it up. -/
def fencedStore : Store :=
  (rgwlib.lock "lock:test_queue" "mycookie" 500 0 queueStore).2

/-! ## Outcome tables and call sequences -/

/-- The outcome of `assert_lock` as a function of the looked-up entry. -/
def assertOutcome (cookie : String) : Option Entry → Except String Int
  | none => .ok (-2)
  | some e =>
    match e.val with
    | .str v => if v = cookie then .ok 0 else .ok (-16)
    | .list _ => .error wrongType

/-- The outcome of `lock` as a function of the looked-up entry. -/
def lockOutcome (s : Store) (now : Int) (name cookie : String) (timeout : Int) :
    Option Entry → Except String Int × Store
  | none =>
    if timeout ≤ 0 then (.error invalidExpire, s)
    else (.ok 0, Function.update s name (some ⟨.str cookie, some (now + timeout)⟩))
  | some e =>
    match e.val with
    | .str v =>
      if v = cookie then
        if timeout ≤ 0 then (.ok 0, Function.update s name none)
        else (.ok 0, Function.update s name (some { e with expireAt := some (now + timeout) }))
      else (.ok (-16), s)
    | .list _ => (.error wrongType, s)

/-- The outcome of `unlock` as a function of the looked-up entry. -/
def unlockOutcome (s : Store) (name cookie : String) :
    Option Entry → Except String Int × Store
  | none => (.ok (-2), s)
  | some e =>
    match e.val with
    | .str v => if v = cookie then (.ok 0, Function.update s name none) else (.ok (-16), s)
    | .list _ => (.error wrongType, s)

/-- One call of the lock manager. -/
inductive LockCall where
  | lock (name cookie : String) (ttl : Int)
  | unlock (name cookie : String)
  | assert_locked (name cookie : String)
deriving DecidableEq, Repr

/-- The library function a call invokes. -/
def LockCall.script : LockCall → Script Int
  | .lock name cookie ttl => rgwlib.lock name cookie ttl
  | .unlock name cookie => rgwlib.unlock name cookie
  | .assert_locked name cookie => rgwlib.assert_lock name cookie

/-- The store reached by issuing the calls in order, each at its own time. -/
def runCalls (s : Store) : List (Int × LockCall) → Store
  | [] => s
  | (t, c) :: rest => runCalls (c.script t s).2 rest

/-- The calls of the `MultiLock` test followed by an `unlock` by the loser. -/
def multiLockCalls : List (Int × LockCall) :=
  [(0, .lock "lock:multi" "mycookie1" 12000),
   (10, .lock "lock:multi" "mycookie2" 12000),
   (20, .unlock "lock:multi" "mycookie2")]

/-! ## Queue commands and library functions -/

namespace redis

/-- `LPUSH key value`: insert the value at the head of the list, creating the
list when the key is absent; answers the new length; an error when the key
holds a string. -/
def LPUSH (k v : String) : Script Int := fun now s =>
  match lookupKey s now k with
  | none => (.ok 1, Function.update s k (some ⟨.list [v], none⟩))
  | some e =>
    match e.val with
    | .list xs =>
      (.ok ((xs.length : Int) + 1),
        Function.update s k (some ⟨.list (v :: xs), e.expireAt⟩))
    | .str _ => (.error wrongType, s)

/-- `RPOP key`: remove and answer the last element of the list, nothing when
the key is absent; a list that becomes empty is deleted; an error when the
key holds a string. -/
def RPOP (k : String) : Script (Option String) := fun now s =>
  match lookupKey s now k with
  | none => (.ok none, s)
  | some e =>
    match e.val with
    | .list xs =>
      match xs.getLast? with
      | none => (.ok none, s)
      | some x =>
        (.ok (some x),
          Function.update s k
            (if xs.dropLast = [] then none
             else some ⟨.list xs.dropLast, e.expireAt⟩))
    | .str _ => (.error wrongType, s)

/-- `LLEN key`: the length of the list, 0 when the key is absent, an error
when the key holds a string. -/
def LLEN (k : String) : Script Int := fun now s =>
  match lookupKey s now k with
  | none => (.ok 0, s)
  | some e =>
    match e.val with
    | .list xs => (.ok (xs.length : Int), s)
    | .str _ => (.error wrongType, s)

end redis

/-- Lua truthiness: only `nil` (and `false`) are falsy; every number and
every string is truthy. -/
def LuaVal.truthy : LuaVal → Bool
  | .nil => false
  | .num _ => true
  | .str _ => true

/-- Lua `math.ceil(n / d)` for integers `n` and a positive integer `d`. -/
def luaCeilDiv (n d : Int) : Int := -((-n) / d)

/-- A hexadecimal digit (lower case). -/
def hexDigit (n : Nat) : Char :=
  if n < 10 then Char.ofNat (48 + n) else Char.ofNat (87 + n)

/-- The JSON text of one character inside a string: the quote and the
backslash are escaped with a backslash, a control character is written as
`\u00` and two hexadecimal digits, any other character stands for itself. -/
def jsonEscape (c : Char) : String :=
  if c = Char.ofNat 34 then "\\\""
  else if c = Char.ofNat 92 then "\\\\"
  else if c.toNat < 32 then
    "\\u00" ++ String.mk [hexDigit (c.toNat / 16), hexDigit (c.toNat % 16)]
  else String.singleton c

/-- The JSON text of a string. -/
def jsonString (s : String) : String :=
  "\"" ++ String.join (s.data.map jsonEscape) ++ "\""

/-- Modelled from the spec: "Batch read results are serialized as a JSON array
of strings".  The JSON text of the array of the given strings, in order. -/
def jsonArray (xs : List String) : String :=
  "[" ++ ",".intercalate (xs.map jsonString) ++ "]"

namespace rgwlib

/-- The `charset` of Lua `generateString`. -/
def charset : String :=
  "abcdefghijklmnopqrstuvwxyzABCDEFGHIJKLMNOPQRSTUVWXYZ1234567890"

/-- Lua `generateString(n)`: the charset concatenated
`math.ceil(n / #charset) + 1` times. -/
def generateString (n : Int) : String :=
  let charset_length : Int := charset.length
  let repeats := luaCeilDiv n charset_length + 1
  String.join (List.replicate repeats.toNat charset)

/-- Lua `reserve(keys, args)` with `item_size = tonumber(args[1])`. -/
def reserve (key : String) (item_size : Int) : Script Int := do
  let name := "reserve:" ++ key
  let value := generateString item_size
  let pushed ← redis.LPUSH name value
  if !(LuaVal.num pushed).truthy then
    pure (-lerrorCodes.ENOMEM)
  else
    pure 0

/-- Lua `unreserve(keys)`. -/
def unreserve (key : String) : Script Int := do
  let name := "reserve:" ++ key
  let value ← redis.RPOP name
  if value.isNone then
    pure (-lerrorCodes.ENOENT)
  else
    pure 0

/-- Lua `commit(keys, args)` with `message = args[1]`; the status of the
inner `unreserve(keys)` is discarded. -/
def commit (key message : String) : Script Int := do
  let name := "queue:" ++ key
  let _ ← unreserve key
  let pushed ← redis.LPUSH name message
  if !(LuaVal.num pushed).truthy then
    pure (-lerrorCodes.ENOMEM)
  else
    pure 0

/-- Modelled from the spec: the procedure `abort`, which the client calls by
that name, has no Lua body under that name in the sources.  The interface table
lists it as one procedure `unreserve/abort` (keys `[queuename]`, no args,
status code) that releases exactly one reservation without writing a message,
so it is the body of `unreserve`. -/
def abort (key : String) : Script Int := unreserve key

/-- Modelled from the spec: the procedure `ack` has no Lua body in the
sources.  `ack(name) → OK` removes the single oldest message of the queue. -/
def ack (key : String) : Script Int := do
  let name := "queue:" ++ key
  let _ ← redis.RPOP name
  pure 0

/-- Modelled from the spec: the procedure `locked_ack` has no Lua body in the
sources.  `locked_ack(name, cookie) → OK | lock-error` first performs
`assert_locked("lock:"+name, cookie)` in the same procedure and then acts as
`ack`. -/
def locked_ack (key cookie : String) : Script Int := do
  let lock_status ← assert_lock ("lock:" ++ key) cookie
  if lock_status = 0 then
    ack key
  else
    pure lock_status

/-- Modelled from the spec: the procedure `locked_read_multi` has no Lua body
in the sources.  `locked_read_batch(name, cookie, count)` answers the ordered
list of up to `count` messages, oldest first, serialized as a JSON array of
strings, after the same fencing check `assert_locked("lock:"+name, cookie)`,
or the lock error as a status code. -/
def locked_read_multi (key cookie : String) (count : Int) : Script LuaVal := do
  let name := "queue:" ++ key
  let lock_status ← assert_lock ("lock:" ++ key) cookie
  if lock_status = 0 then
    let r ← redis.LRANGE name 0 (-1)
    pure (.str (jsonArray (r.reverse.take count.toNat)))
  else
    pure (.num lock_status)

/-- Remove the last element of the list `n` times (fewer when it runs out). -/
def rpopMany (name : String) : Nat → Script Unit
  | 0 => pure ()
  | n + 1 => do
    let _ ← redis.RPOP name
    rpopMany name n

/-- Modelled from the spec: the procedure `locked_ack_multi` has no Lua body
in the sources.  `locked_ack_batch(name, cookie, count) → OK | lock-error`
removes up to `count` oldest messages in one step, after the fencing check
`assert_locked("lock:"+name, cookie)`. -/
def locked_ack_multi (key cookie : String) (count : Int) : Script Int := do
  let name := "queue:" ++ key
  let lock_status ← assert_lock ("lock:" ++ key) cookie
  if lock_status = 0 then
    rpopMany name count.toNat
    pure 0
  else
    pure lock_status

end rgwlib

namespace redisqueue

/-- Client `queue_status(conn, name, res, y)`: two `LLEN` commands in one
request.  `ec` is the transport error code the round-trip ended with (0 for
none); `res` is the caller's tuple.  A command error makes `.value()` throw,
which the function turns into -EINVAL. -/
def queue_status (ec : Int) (name : String) (res : Int × Int) (now : Int)
    (s : Store) : (Int × (Int × Int)) × Store :=
  if ec ≠ 0 then ((-ec, res), s)
  else
    match (redis.LLEN ("reserve:" ++ name) now s).1,
        (redis.LLEN ("queue:" ++ name) now s).1 with
    | .ok r, .ok q => ((0, (r, q)), s)
    | _, _ => ((-22, res), s)

/-- Client `reserve(conn, name, y)`, with its fixed `reserveSize = 120`. -/
def reserve (name : String) (now : Int) (s : Store) : Int × Store :=
  let reserveSize : Int := 120
  let out := rgwlib.reserve name reserveSize now s
  ((do_redis_func (out.1.map LuaVal.num)).errorCode, out.2)

/-- Client `commit(conn, name, data, y)`. -/
def commit (name data : String) (now : Int) (s : Store) : Int × Store :=
  let out := rgwlib.commit name data now s
  ((do_redis_func (out.1.map LuaVal.num)).errorCode, out.2)

/-- Client `abort(conn, name, y)`. -/
def abort (name : String) (now : Int) (s : Store) : Int × Store :=
  let out := rgwlib.abort name now s
  ((do_redis_func (out.1.map LuaVal.num)).errorCode, out.2)

/-- Client `ack(conn, name, y)`. -/
def ack (name : String) (now : Int) (s : Store) : Int × Store :=
  let out := rgwlib.ack name now s
  ((do_redis_func (out.1.map LuaVal.num)).errorCode, out.2)

/-- Client `locked_ack(conn, name, lock_cookie, y)` (single message). -/
def locked_ack (name lock_cookie : String) (now : Int) (s : Store) : Int × Store :=
  let out := rgwlib.locked_ack name lock_cookie now s
  ((do_redis_func (out.1.map LuaVal.num)).errorCode, out.2)

/-- Client `locked_ack(conn, name, lock_cookie, count, y)` (batch). -/
def locked_ack_multi (name lock_cookie : String) (count : Int) (now : Int)
    (s : Store) : Int × Store :=
  let out := rgwlib.locked_ack_multi name lock_cookie count now s
  ((do_redis_func (out.1.map LuaVal.num)).errorCode, out.2)

end redisqueue

/-! ## Views of the queue keys -/

/-- The list a list command sees under a key at `now`: empty for an absent or
expired key, nothing when the key holds a string. -/
def listAt (s : Store) (now : Int) (k : String) : Option (List String) :=
  match lookupKey s now k with
  | none => some []
  | some e =>
    match e.val with
    | .list xs => some xs
    | .str _ => none

/-- The list under a key that is absent or holds a list without a deadline
(the only lists the library creates); nothing otherwise. -/
def listOf (s : Store) (k : String) : Option (List String) :=
  match s k with
  | none => some []
  | some e =>
    match e.val, e.expireAt with
    | .list xs, none => some xs
    | _, _ => none

/-- What `read` answers for a message list: its last element, or `nil`. -/
def oldest (ms : List String) : LuaVal :=
  match ms.getLast? with
  | some m => .str m
  | none => .nil

/-! ## Call sequences on a queue -/

/-- The store after `lock("test_queue", "mycookie", 500)` at time 0 on
`queueStore`: the lock name is the queue name itself, and no record exists
under `lock:test_queue`. -/
def selfLockedStore : Store :=
  (rgwlib.lock "test_queue" "mycookie" 500 0 queueStore).2

/-- One producer call on a queue. -/
inductive QueueCall where
  | reserve (size : Int)
  | abort
  | commit (payload : String)
deriving DecidableEq, Repr

/-- The library function a producer call invokes on the queue `key`. -/
def QueueCall.script (key : String) : QueueCall → Script Int
  | .reserve size => rgwlib.reserve key size
  | .abort => rgwlib.abort key
  | .commit payload => rgwlib.commit key payload

/-- The store reached by issuing the producer calls in order on the queue
`key`, each at its own time. -/
def runQueueCalls (key : String) (s : Store) : List (Int × QueueCall) → Store
  | [] => s
  | (t, c) :: rest => runQueueCalls key ((c.script key) t s).2 rest

/-- The payloads committed by a sequence of producer calls, in call order. -/
def committed : List (Int × QueueCall) → List String
  | [] => []
  | (_, .commit payload) :: rest => payload :: committed rest
  | (_, .reserve _) :: rest => committed rest
  | (_, .abort) :: rest => committed rest

/-- What the client observes in the round-trip scenario on the queue `q`:
`reserve`, `queue_status`, `commit(m)`, `queue_status`, `read`, `ack`,
`queue_status`, `read`, the i-th call issued at time `t i`; every
`queue_status` round-trip succeeds and starts from the tuple `(-1, -1)`. -/
def roundTripTrace (q m : String) (t : Nat → Int) (s0 : Store) :
    Int × (Int × (Int × Int)) × Int × (Int × (Int × Int)) × (Int × String) ×
      Int × (Int × (Int × Int)) × (Int × String) :=
  let r1 := redisqueue.reserve q (t 0) s0
  let st1 := redisqueue.queue_status 0 q (-1, -1) (t 1) r1.2
  let r2 := redisqueue.commit q m (t 2) st1.2
  let st2 := redisqueue.queue_status 0 q (-1, -1) (t 3) r2.2
  let r3 := redisqueue.read q (t 4) st2.2
  let r4 := redisqueue.ack q (t 5) r3.2
  let st3 := redisqueue.queue_status 0 q (-1, -1) (t 6) r4.2
  let r5 := redisqueue.read q (t 7) st3.2
  (r1.1, st1.1, r2.1, st2.1, r3.1, r4.1, st3.1, r5.1)

/-- One call of a library function that the sources define. -/
inductive LibCall where
  | lock (name cookie : String) (ttl : Int)
  | unlock (name cookie : String)
  | assert_lock (name cookie : String)
  | reserve (key : String) (size : Int)
  | unreserve (key : String)
  | commit (key payload : String)
  | read (key : String)
  | locked_read (key cookie : String)
deriving DecidableEq, Repr

/-- The store a library call leaves behind. -/
def LibCall.after (now : Int) (s : Store) : LibCall → Store
  | .lock name cookie ttl => (rgwlib.lock name cookie ttl now s).2
  | .unlock name cookie => (rgwlib.unlock name cookie now s).2
  | .assert_lock name cookie => (rgwlib.assert_lock name cookie now s).2
  | .reserve key size => (rgwlib.reserve key size now s).2
  | .unreserve key => (rgwlib.unreserve key now s).2
  | .commit key payload => (rgwlib.commit key payload now s).2
  | .read key => (rgwlib.read key now s).2
  | .locked_read key cookie => (rgwlib.locked_read key cookie now s).2

/-- The lock name a lock-manager call works on. -/
def LibCall.lockName : LibCall → Option String
  | .lock name _ _ => some name
  | .unlock name _ => some name
  | .assert_lock name _ => some name
  | _ => none

/-- The store `queueStore` with two outstanding reservations on `test_queue`. -/
def reservedStore : Store :=
  Function.update queueStore "reserve:test_queue" (some ⟨.list ["r2", "r1"], none⟩)

/-- The store in which `mycookie` holds `lock:test_queue` until time 500 and
the queue `test_queue` has never been used. -/
def lockedEmptyStore : Store :=
  (rgwlib.lock "lock:test_queue" "mycookie" 500 0 Store.empty).2

/-- Producer calls that commit `p1` and then `p2`, with a `reserve` and an
`abort` in between. -/
def producerCalls : List (Int × QueueCall) :=
  [(0, .reserve 120), (1, .commit "p1"), (2, .abort), (3, .commit "p2")]

/-! ## Batch decoding and library loading -/

/-- A parsed JSON value (`boost::json::value`). -/
inductive Json where
  | null
  | bool (b : Bool)
  | num (n : Int)
  | str (s : String)
  | arr (xs : List Json)
  | obj (kvs : List (String × Json))

/-- The `std::string` built from `element.as_string().c_str()`: a C string
ends at its first NUL character. -/
def c_str (s : String) : String :=
  String.mk (s.data.takeWhile (fun c => c ≠ Char.ofNat 0))

/-- The loop `for (auto& element : v.as_array()) res.push_back(
element.as_string().c_str())`: `as_string()` throws on an element that is
not a string, which leaves in `res` what was pushed before it. -/
def pushElements : List Json → List String → Except String Unit × List String
  | [], res => (.ok (), res)
  | .str s :: rest, res => pushElements rest (res ++ [c_str s])
  | _ :: _, res => (.error "as_string: not a string", res)

namespace redisqueue

/-- Client `locked_read(conn, name, lock_cookie, res, count, y)` (batch), from
the response `ret` of `do_redis_func` on: the value returned, or the exception
that leaves the function, and the caller's vector `res` afterwards.  `parse` is
`boost::json::parse`, which throws (here: answers nothing) on text that is not
JSON. -/
def locked_read_multi (parse : String → Option Json) (ret : RedisResponse)
    (res : List String) : Except String Int × List String :=
  if ret.errorCode = 0 then
    match parse ret.data with
    | none => (.error "parse: not JSON", res)
    | some (.arr elements) =>
      match pushElements elements res with
      | (.ok _, res2) => (.ok ret.errorCode, res2)
      | (.error e, res2) => (.error e, res2)
    | some _ => (.ok (-22), res)
  else
    (.ok ret.errorCode, res)

/-- Client `locked_read(conn, name, lock_cookie, res, count, y)` (batch), the
whole call: `FCALL locked_read_multi` through `do_redis_func`, then the
decoding above; with the store after the call. -/
def locked_read_multi_call (parse : String → Option Json)
    (name lock_cookie : String) (count : Int) (res : List String) (now : Int)
    (s : Store) : (Except String Int × List String) × Store :=
  let out := rgwlib.locked_read_multi name lock_cookie count now s
  (locked_read_multi parse (do_redis_func out.1) res, out.2)

end redisqueue

/-- A JSON reader for a handful of texts, standing for `boost::json::parse`
on them; any other text is not JSON. -/
def demoParse (text : String) : Option Json :=
  if text = "[\"m1\",\"m2\"]" then some (.arr [.str "m1", .str "m2"])
  else if text = "[\"m1\",7]" then some (.arr [.str "m1", .num 7])
  else if text = "[\"a\\u0000b\"]" then some (.arr [.str "a\x00b"])
  else if text = "7" then some (.num 7)
  else if text = "\"m1\"" then some (.str "m1")
  else if text = "\x7b\x7d" then some (.obj [])
  else none

/-- The value `loadLuaFunctions` returns, or the exception that leaves it.
`ec` is the transport error code the round-trip ended with (0 for none) and
`resp` the reply to `FUNCTION LOAD REPLACE` (the library name, or an error
reply, on which `.value()` throws). -/
def loadLuaFunctions (ec : Int) (resp : Except String String) : Except String Int :=
  if ec ≠ 0 then .ok ec
  else
    match resp with
    | .error e => .error e
    | .ok name => if name ≠ "rgwlib" then .ok (-22) else .ok 0

/-- The logical status codes of the library and the client. -/
def logicalCodes : List Int :=
  [-lerrorCodes.ENOENT, -lerrorCodes.EBUSY, -lerrorCodes.ENOMEM, -22]

/-- One commit of a payload that contains a NUL character. -/
def nulCalls : List (Int × QueueCall) := [(1, .commit "a\x00b")]

/-- Two commits, `m1` and then `m2`. -/
def twoCommits : List (Int × QueueCall) := [(1, .commit "m1"), (2, .commit "m2")]

/-! ## Basic facts -/

@[simp] theorem Script.pure_run {α : Type} (a : α) (now : Int) (s : Store) :
    (pure a : Script α) now s = (.ok a, s) := rfl

@[simp] theorem Script.bind_run {α β : Type} (m : Script α) (f : α → Script β)
    (now : Int) (s : Store) :
    (m >>= f) now s = Script.bind m f now s := rfl

theorem assert_lock_run (name cookie : String) (now : Int) (s : Store) :
    rgwlib.assert_lock name cookie now s
      = (assertOutcome cookie (lookupKey s now name), s) := by
  cases h : lookupKey s now name with
  | none =>
    simp [rgwlib.assert_lock, Script.bind, redis.EXISTS, h, assertOutcome,
      lerrorCodes.ENOENT]
  | some e =>
    rcases e with ⟨v, d⟩
    cases v with
    | str v =>
      by_cases hv : v = cookie <;>
        simp [rgwlib.assert_lock, Script.bind, redis.EXISTS, redis.GET, h,
          assertOutcome, hv, lerrorCodes.EBUSY]
    | list xs =>
      simp [rgwlib.assert_lock, Script.bind, redis.EXISTS, redis.GET, h,
        assertOutcome]

theorem lookupKey_update_same (s : Store) (now : Int) (k : String) (e : Entry)
    (h : e.live now = true) :
    lookupKey (Function.update s k (some e)) now k = some e := by
  simp [lookupKey, h]

theorem lookupKey_update_none (s : Store) (now : Int) (k : String) :
    lookupKey (Function.update s k none) now k = none := by
  simp [lookupKey]

theorem lookupKey_eq_some {s : Store} {now : Int} {k : String} {e : Entry} :
    lookupKey s now k = some e ↔ s k = some e ∧ e.live now = true := by
  unfold lookupKey
  cases hs : s k with
  | none => simp
  | some e1 =>
    by_cases hl : e1.live now = true
    · simp only [hl, if_true, Option.some.injEq]
      constructor
      · intro h; subst h; exact ⟨rfl, hl⟩
      · intro h; exact h.1
    · simp only [hl, Option.some.injEq]
      constructor
      · intro h; cases h
      · intro h
        rcases h with ⟨h1, h2⟩
        subst h1
        exact absurd h2 hl

theorem lookupKey_eq_none {s : Store} {now : Int} {k : String} :
    lookupKey s now k = none ↔
      s k = none ∨ ∃ e, s k = some e ∧ e.live now = false := by
  unfold lookupKey
  cases hs : s k with
  | none => simp
  | some e1 =>
    by_cases hl : e1.live now = true
    · simp [hl]
    · simp [hl]

theorem lock_run (name cookie : String) (timeout now : Int) (s : Store) :
    rgwlib.lock name cookie timeout now s
      = lockOutcome s now name cookie timeout (lookupKey s now name) := by
  have ha := assert_lock_run name cookie now s
  cases h : lookupKey s now name with
  | none =>
    rw [h] at ha
    by_cases ht : timeout ≤ 0 <;>
      simp [rgwlib.lock, Script.bind, ha, assertOutcome, lockOutcome, redis.SET_PX,
        lerrorCodes.ENOENT, ht]
  | some e =>
    rw [h] at ha
    rcases e with ⟨v, d⟩
    cases v with
    | str v =>
      by_cases hv : v = cookie
      · by_cases ht : timeout ≤ 0 <;>
          simp [rgwlib.lock, Script.bind, ha, assertOutcome, lockOutcome,
            redis.PEXPIRE, h, hv, ht]
      · simp [rgwlib.lock, Script.bind, ha, assertOutcome, lockOutcome, hv,
          lerrorCodes.ENOENT]
    | list xs =>
      simp [rgwlib.lock, Script.bind, ha, assertOutcome, lockOutcome]

theorem unlock_run (name cookie : String) (now : Int) (s : Store) :
    rgwlib.unlock name cookie now s
      = unlockOutcome s name cookie (lookupKey s now name) := by
  have ha := assert_lock_run name cookie now s
  cases h : lookupKey s now name with
  | none =>
    rw [h] at ha
    simp [rgwlib.unlock, Script.bind, ha, assertOutcome, unlockOutcome]
  | some e =>
    rw [h] at ha
    rcases e with ⟨v, d⟩
    cases v with
    | str v =>
      by_cases hv : v = cookie
      · simp [rgwlib.unlock, Script.bind, ha, assertOutcome, unlockOutcome,
          redis.DEL, h, hv]
      · simp [rgwlib.unlock, Script.bind, ha, assertOutcome, unlockOutcome, hv]
    | list xs =>
      simp [rgwlib.unlock, Script.bind, ha, assertOutcome, unlockOutcome]

/-- A `lock` call with a positive ttl that answers 0 leaves the record
`(cookie, now + ttl)` under the lock name, whether it acquired or renewed. -/
theorem lock_ok_store {name cookie : String} {ttl now : Int} {s : Store}
    (httl : 0 < ttl) (hok : (rgwlib.lock name cookie ttl now s).1 = .ok 0) :
    (rgwlib.lock name cookie ttl now s).2
      = Function.update s name (some ⟨.str cookie, some (now + ttl)⟩) := by
  have ht : ¬ ttl ≤ 0 := not_le.mpr httl
  rw [lock_run] at hok ⊢
  cases h : lookupKey s now name with
  | none => simp [lockOutcome, ht]
  | some e =>
    rcases e with ⟨v, d⟩
    cases v with
    | str v =>
      by_cases hv : v = cookie
      · simp [lockOutcome, hv, ht]
      · rw [h] at hok
        simp [lockOutcome, hv] at hok
    | list xs =>
      rw [h] at hok
      simp [lockOutcome] at hok

/-- A live record owned by another cookie makes `lock` answer -EBUSY and
leave the store as it was. -/
theorem lock_busy_of_record {name c1 c2 : String} {ttl now : Int} {s : Store}
    {d : Option Int} (hrec : s name = some ⟨.str c1, d⟩)
    (hlive : Entry.live now ⟨.str c1, d⟩ = true) (hne : c1 ≠ c2) :
    rgwlib.lock name c2 ttl now s = (.ok (-lerrorCodes.EBUSY), s) := by
  have hl : lookupKey s now name = some ⟨.str c1, d⟩ :=
    lookupKey_eq_some.mpr ⟨hrec, hlive⟩
  rw [lock_run, hl]
  simp [lockOutcome, hne, lerrorCodes.EBUSY]

/-- A live record owned by the cookie makes `assert_lock` answer 0. -/
theorem assert_ok_of_record {name c : String} {now : Int} {s : Store}
    {d : Option Int} (hrec : s name = some ⟨.str c, d⟩)
    (hlive : Entry.live now ⟨.str c, d⟩ = true) :
    rgwlib.assert_lock name c now s = (.ok 0, s) := by
  have hl : lookupKey s now name = some ⟨.str c, d⟩ :=
    lookupKey_eq_some.mpr ⟨hrec, hlive⟩
  rw [assert_lock_run, hl]
  simp [assertOutcome]

theorem live_deadline {now d : Int} {v : RVal} (h : now ≤ d) :
    Entry.live now ⟨v, some d⟩ = true := by
  simp [Entry.live, h]

/-- When `assert_lock` answers 0 the name holds a record owned by the cookie. -/
theorem assert_ok_owner {name c : String} {now : Int} {s : Store}
    (h : (rgwlib.assert_lock name c now s).1 = .ok 0) :
    ∃ e, s name = some e ∧ e.owner = some c := by
  rw [assert_lock_run] at h
  cases hl : lookupKey s now name with
  | none =>
    rw [hl] at h
    simp [assertOutcome] at h
  | some e =>
    rw [hl] at h
    refine ⟨e, (lookupKey_eq_some.mp hl).1, ?_⟩
    rcases e with ⟨v, d⟩
    cases v with
    | str v =>
      by_cases hv : v = c
      · simp [Entry.owner, hv]
      · simp [assertOutcome, hv] at h
    | list xs => simp [assertOutcome] at h

/-- With no entry under the name `assert_lock` answers -ENOENT. -/
theorem assert_enoent_of_absent {name : String} {s : Store} (h : s name = none)
    (c : String) (now : Int) :
    (rgwlib.assert_lock name c now s).1 = .ok (-lerrorCodes.ENOENT) := by
  rw [assert_lock_run, lookupKey_eq_none.mpr (Or.inl h)]
  simp [assertOutcome, lerrorCodes.ENOENT]

/-! ## Lock manager -/

/-- C1: for every lock name, cookies `c1 ≠ c2` and positive ttl, once
`lock(name, c1, ttl)` issued at `t0` has answered 0, a `lock(name, c2, ttl)`
issued at any time `t1` up to the deadline `t0 + ttl` answers -EBUSY and leaves
the store (so the record `(c1, t0 + ttl)`) unchanged, and
`assert_lock(name, c1)` still answers 0. -/
theorem lock_conflict_busy (s0 : Store) (t0 t1 : Int) (name c1 c2 : String)
    (ttl : Int) (hne : c1 ≠ c2) (httl : 0 < ttl)
    (hok : (rgwlib.lock name c1 ttl t0 s0).1 = .ok 0)
    (hlive : t1 ≤ t0 + ttl) :
    (rgwlib.lock name c1 ttl t0 s0).2 name = some ⟨.str c1, some (t0 + ttl)⟩ ∧
    rgwlib.lock name c2 ttl t1 (rgwlib.lock name c1 ttl t0 s0).2
      = (.ok (-lerrorCodes.EBUSY), (rgwlib.lock name c1 ttl t0 s0).2) ∧
    rgwlib.assert_lock name c1 t1 (rgwlib.lock name c1 ttl t0 s0).2
      = (.ok 0, (rgwlib.lock name c1 ttl t0 s0).2) := by
  have hs := lock_ok_store httl hok
  have hrec : (rgwlib.lock name c1 ttl t0 s0).2 name
      = some ⟨.str c1, some (t0 + ttl)⟩ := by
    rw [hs]; simp
  exact ⟨hrec, lock_busy_of_record hrec (live_deadline hlive) hne,
    assert_ok_of_record hrec (live_deadline hlive)⟩

/-- C2: when no record exists under the lock name, `lock(name, cookie, ttl)`
with a positive ttl issued at `now` answers 0 and creates the record
`(cookie, now + ttl)`, and an immediately following `assert_lock(name, cookie)`
answers 0. -/
theorem lock_acquire_absent (s : Store) (now : Int) (name cookie : String)
    (ttl : Int) (habs : s name = none) (httl : 0 < ttl) :
    rgwlib.lock name cookie ttl now s
      = (.ok 0, Function.update s name (some ⟨.str cookie, some (now + ttl)⟩)) ∧
    rgwlib.assert_lock name cookie now
        (Function.update s name (some ⟨.str cookie, some (now + ttl)⟩))
      = (.ok 0, Function.update s name (some ⟨.str cookie, some (now + ttl)⟩)) := by
  have ht : ¬ ttl ≤ 0 := not_le.mpr httl
  have hl : lookupKey s now name = none := lookupKey_eq_none.mpr (Or.inl habs)
  refine ⟨?_, ?_⟩
  · rw [lock_run, hl]
    simp [lockOutcome, ht]
  · have hrec : Function.update s name (some ⟨.str cookie, some (now + ttl)⟩) name
        = some ⟨.str cookie, some (now + ttl)⟩ := by simp
    exact assert_ok_of_record hrec (live_deadline (by omega))

/-- C3: renewal.  For an unexpired record owned by `cookie`,
`lock(name, cookie, ttl)` with a positive ttl issued at `now` answers 0, keeps
the owner and sets the deadline to exactly `now + ttl`. -/
theorem lock_renew (s : Store) (now : Int) (name cookie : String) (ttl : Int)
    (d : Option Int) (hrec : s name = some ⟨.str cookie, d⟩)
    (hlive : Entry.live now ⟨.str cookie, d⟩ = true) (httl : 0 < ttl) :
    rgwlib.lock name cookie ttl now s
      = (.ok 0, Function.update s name (some ⟨.str cookie, some (now + ttl)⟩)) := by
  have ht : ¬ ttl ≤ 0 := not_le.mpr httl
  have hl : lookupKey s now name = some ⟨.str cookie, d⟩ :=
    lookupKey_eq_some.mpr ⟨hrec, hlive⟩
  rw [lock_run, hl]
  simp [lockOutcome, ht]

/-- C4: expiry and takeover.  If `c1` acquired the lock at `t0` and the
deadline `t0 + ttl` has passed at `t1` with no renewal, then `lock(name, c2,
ttl)` by a different cookie at `t1` answers 0 and makes `c2` the owner with
deadline `t1 + ttl`, and a later `lock(name, c1, ttl)` by the original cookie
at any `t2` up to that deadline answers -EBUSY and changes nothing. -/
theorem lock_takeover_after_expiry (s0 : Store) (t0 t1 t2 : Int)
    (name c1 c2 : String) (ttl : Int) (hne : c1 ≠ c2) (httl : 0 < ttl)
    (hok : (rgwlib.lock name c1 ttl t0 s0).1 = .ok 0)
    (hexp : t0 + ttl < t1) (ht2 : t2 ≤ t1 + ttl) :
    rgwlib.lock name c2 ttl t1 (rgwlib.lock name c1 ttl t0 s0).2
      = (.ok 0, Function.update (rgwlib.lock name c1 ttl t0 s0).2 name
          (some ⟨.str c2, some (t1 + ttl)⟩)) ∧
    rgwlib.lock name c1 ttl t2
        (Function.update (rgwlib.lock name c1 ttl t0 s0).2 name
          (some ⟨.str c2, some (t1 + ttl)⟩))
      = (.ok (-lerrorCodes.EBUSY),
          Function.update (rgwlib.lock name c1 ttl t0 s0).2 name
            (some ⟨.str c2, some (t1 + ttl)⟩)) := by
  have ht : ¬ ttl ≤ 0 := not_le.mpr httl
  have hs := lock_ok_store httl hok
  have hrec : (rgwlib.lock name c1 ttl t0 s0).2 name
      = some ⟨.str c1, some (t0 + ttl)⟩ := by
    rw [hs]; simp
  have hdead : Entry.live t1 ⟨.str c1, some (t0 + ttl)⟩ = false := by
    simp [Entry.live, hexp]
  have hl : lookupKey (rgwlib.lock name c1 ttl t0 s0).2 t1 name = none :=
    lookupKey_eq_none.mpr (Or.inr ⟨_, hrec, hdead⟩)
  refine ⟨?_, ?_⟩
  · rw [lock_run, hl]
    simp [lockOutcome, ht]
  · have hrec2 : Function.update (rgwlib.lock name c1 ttl t0 s0).2 name
        (some ⟨.str c2, some (t1 + ttl)⟩) name
        = some ⟨.str c2, some (t1 + ttl)⟩ := by simp
    exact lock_busy_of_record hrec2 (live_deadline ht2) (fun h => hne h.symm)

/-- C5: `assert_lock(name, cookie)` answers 0 exactly when a record exists,
is unexpired and its owner is `cookie`; -EBUSY exactly when a record exists, is
unexpired and its owner is a different cookie; -ENOENT exactly when no record
exists or it has expired; and it never changes the store. -/
theorem assert_lock_spec (s : Store) (now : Int) (name cookie : String) :
    ((rgwlib.assert_lock name cookie now s).1 = .ok 0 ↔
      ∃ e, s name = some e ∧ e.live now = true ∧ e.owner = some cookie) ∧
    ((rgwlib.assert_lock name cookie now s).1 = .ok (-lerrorCodes.EBUSY) ↔
      ∃ e c, s name = some e ∧ e.live now = true ∧ e.owner = some c ∧ c ≠ cookie) ∧
    ((rgwlib.assert_lock name cookie now s).1 = .ok (-lerrorCodes.ENOENT) ↔
      (s name = none ∨ ∃ e, s name = some e ∧ e.live now = false)) ∧
    (rgwlib.assert_lock name cookie now s).2 = s := by
  rw [assert_lock_run]
  refine ⟨?_, ?_, ?_, rfl⟩
  · cases hs : s name with
    | none => simp [lookupKey, hs, assertOutcome]
    | some e =>
      rcases e with ⟨v, d⟩
      by_cases hl : Entry.live now ⟨v, d⟩ = true
      · cases v with
        | str v =>
          by_cases hv : v = cookie
          · subst hv
            simp [lookupKey, hs, hl, assertOutcome, Entry.owner]
          · simp [lookupKey, hs, hl, assertOutcome, Entry.owner, hv]
        | list xs => simp [lookupKey, hs, hl, assertOutcome, Entry.owner]
      · simp [lookupKey, hs, hl, assertOutcome]
  · cases hs : s name with
    | none => simp [lookupKey, hs, assertOutcome, lerrorCodes.EBUSY]
    | some e =>
      rcases e with ⟨v, d⟩
      by_cases hl : Entry.live now ⟨v, d⟩ = true
      · cases v with
        | str v =>
          by_cases hv : v = cookie
          · subst hv
            simp [lookupKey, hs, hl, assertOutcome, Entry.owner, lerrorCodes.EBUSY]
          · simp [lookupKey, hs, hl, assertOutcome, Entry.owner, hv,
              lerrorCodes.EBUSY]
        | list xs =>
          simp [lookupKey, hs, hl, assertOutcome, Entry.owner, lerrorCodes.EBUSY]
      · simp [lookupKey, hs, hl, assertOutcome, lerrorCodes.EBUSY]
  · cases hs : s name with
    | none => simp [lookupKey, hs, assertOutcome, lerrorCodes.ENOENT]
    | some e =>
      rcases e with ⟨v, d⟩
      by_cases hl : Entry.live now ⟨v, d⟩ = true
      · cases v with
        | str v =>
          by_cases hv : v = cookie
          · subst hv
            simp [lookupKey, hs, hl, assertOutcome, lerrorCodes.ENOENT]
          · simp [lookupKey, hs, hl, assertOutcome, hv, lerrorCodes.ENOENT]
        | list xs => simp [lookupKey, hs, hl, assertOutcome, lerrorCodes.ENOENT]
      · simp [lookupKey, hs, hl, assertOutcome, lerrorCodes.ENOENT]

/-- C6: for an unexpired record owned by `cookie`, `unlock(name, cookie)`
answers 0 and deletes the record, after which `assert_lock(name, c)` answers
-ENOENT for every cookie `c` (the former owner included) at every time. -/
theorem unlock_owner_deletes (s : Store) (now : Int) (name cookie : String)
    (d : Option Int) (hrec : s name = some ⟨.str cookie, d⟩)
    (hlive : Entry.live now ⟨.str cookie, d⟩ = true) :
    rgwlib.unlock name cookie now s = (.ok 0, Function.update s name none) ∧
    ∀ (c : String) (t : Int),
      rgwlib.assert_lock name c t (Function.update s name none)
        = (.ok (-lerrorCodes.ENOENT), Function.update s name none) := by
  have hl : lookupKey s now name = some ⟨.str cookie, d⟩ :=
    lookupKey_eq_some.mpr ⟨hrec, hlive⟩
  refine ⟨?_, ?_⟩
  · rw [unlock_run, hl]
    simp [unlockOutcome]
  · intro c t
    rw [assert_lock_run, lookupKey_update_none]
    simp [assertOutcome, lerrorCodes.ENOENT]

/-- C7: `unlock(name, cookie)` answers -ENOENT when no unexpired record exists
and -EBUSY when the record is held by a different unexpired cookie, in both
cases leaving the store exactly as it was; more generally every `unlock` that
does not answer 0 leaves the store as it was. -/
theorem unlock_failure_atomic (s : Store) (now : Int) (name cookie : String) :
    ((s name = none ∨ ∃ e, s name = some e ∧ e.live now = false) →
      rgwlib.unlock name cookie now s = (.ok (-lerrorCodes.ENOENT), s)) ∧
    (∀ (e : Entry) (c : String), s name = some e → e.live now = true →
      e.owner = some c → c ≠ cookie →
      rgwlib.unlock name cookie now s = (.ok (-lerrorCodes.EBUSY), s)) ∧
    ((rgwlib.unlock name cookie now s).1 ≠ .ok 0 →
      (rgwlib.unlock name cookie now s).2 = s) := by
  refine ⟨?_, ?_, ?_⟩
  · intro h
    rw [unlock_run, lookupKey_eq_none.mpr h]
    simp [unlockOutcome, lerrorCodes.ENOENT]
  · intro e c hs hl ho hne
    rw [unlock_run, lookupKey_eq_some.mpr ⟨hs, hl⟩]
    rcases e with ⟨v, d⟩
    cases v with
    | str v =>
      have hv : v = c := by simpa [Entry.owner] using ho
      subst hv
      simp [unlockOutcome, hne, lerrorCodes.EBUSY]
    | list xs => simp [Entry.owner] at ho
  · rw [unlock_run]
    cases h : lookupKey s now name with
    | none => simp [unlockOutcome]
    | some e =>
      rcases e with ⟨v, d⟩
      cases v with
      | str v => by_cases hv : v = cookie <;> simp [unlockOutcome, hv]
      | list xs => simp [unlockOutcome]

/-- C8: mutual exclusion.  In every store reached from the empty store by a
sequence of `lock`, `unlock` and `assert_lock` calls (any names, cookies, ttls
and call times), at each instant at most one cookie has
`assert_lock(name, c) = 0`; and when no record exists for the name,
`assert_lock` answers -ENOENT for every cookie. -/
theorem lock_mutual_exclusion (calls : List (Int × LockCall)) (name : String)
    (now : Int) :
    (∀ c1 c2 : String,
      (rgwlib.assert_lock name c1 now (runCalls Store.empty calls)).1 = .ok 0 →
      (rgwlib.assert_lock name c2 now (runCalls Store.empty calls)).1 = .ok 0 →
      c1 = c2) ∧
    (runCalls Store.empty calls name = none →
      ∀ c : String,
        (rgwlib.assert_lock name c now (runCalls Store.empty calls)).1
          = .ok (-lerrorCodes.ENOENT)) := by
  refine ⟨?_, ?_⟩
  · intro c1 c2 h1 h2
    obtain ⟨e1, hs1, ho1⟩ := assert_ok_owner h1
    obtain ⟨e2, hs2, ho2⟩ := assert_ok_owner h2
    rw [hs1] at hs2
    cases hs2
    rw [ho1] at ho2
    exact Option.some.inj ho2
  · intro h c
    exact assert_enoent_of_absent h c now

/-! ## Fenced reads -/

/-- The Lua `locked_read` decides on the key `key` itself: the key
`"lock:" ++ key` is never consulted. -/
theorem locked_read_run (key cookie : String) (now : Int) (s : Store) :
    rgwlib.locked_read key cookie now s
      = match assertOutcome cookie (lookupKey s now key) with
        | .ok n =>
          if n = 0 then rgwlib.read key now s else (.ok (.num n), s)
        | .error e => (.error e, s) := by
  have ha := assert_lock_run key cookie now s
  cases h : assertOutcome cookie (lookupKey s now key) with
  | error e =>
    rw [h] at ha
    simp [rgwlib.locked_read, Script.bind, ha]
  | ok n =>
    rw [h] at ha
    by_cases hn : n = 0
    · simp [rgwlib.locked_read, rgwlib.read, Script.bind, ha, hn]
    · simp [rgwlib.locked_read, Script.bind, ha, hn]

/-- C9 (the code at the failing input): `mycookie` holds `lock:test_queue`
unexpired and the unfenced read returns `m1`, yet `locked_read("test_queue",
"mycookie")` answers -ENOENT and the client returns -ENOENT with an empty
result. -/
theorem locked_read_valid_lock_refused :
    (rgwlib.lock "lock:test_queue" "mycookie" 500 0 queueStore).1 = .ok 0 ∧
    (rgwlib.assert_lock "lock:test_queue" "mycookie" 1 fencedStore).1 = .ok 0 ∧
    (redisqueue.read "test_queue" 1 fencedStore).1 = (0, "m1") ∧
    (rgwlib.locked_read "test_queue" "mycookie" 1 fencedStore).1
      = .ok (.num (-lerrorCodes.ENOENT)) ∧
    (redisqueue.locked_read "test_queue" "mycookie" 1 fencedStore).1
      = (-lerrorCodes.ENOENT, "") := by
  refine ⟨rfl, rfl, rfl, rfl, rfl⟩

/-- C10 (the code at the failing input): `mycookie` holds `lock:test_queue`
unexpired, and `locked_read("test_queue", "invalid_cookie")` answers -ENOENT,
not -EBUSY; the client result is empty and the store is unchanged. -/
theorem locked_read_other_cookie_enoent :
    (rgwlib.assert_lock "lock:test_queue" "mycookie" 1 fencedStore).1 = .ok 0 ∧
    (rgwlib.assert_lock "lock:test_queue" "invalid_cookie" 1 fencedStore).1
      = .ok (-lerrorCodes.EBUSY) ∧
    (redisqueue.locked_read "test_queue" "invalid_cookie" 1 fencedStore).1
      = (-lerrorCodes.ENOENT, "") ∧
    (redisqueue.locked_read "test_queue" "invalid_cookie" 1 fencedStore).2
      = fencedStore := by
  refine ⟨rfl, rfl, rfl, rfl⟩

/-! ## Concrete instances -/

theorem lock_conflict_busy_witness :
    ("mycookie1" ≠ "mycookie2" ∧ (0 : Int) < 12000 ∧ (500 : Int) ≤ 0 + 12000) ∧
    (rgwlib.lock "lock:multi" "mycookie1" 12000 0 Store.empty).2 "lock:multi"
      = some ⟨.str "mycookie1", some (0 + 12000)⟩ ∧
    rgwlib.lock "lock:multi" "mycookie2" 12000 500
        (rgwlib.lock "lock:multi" "mycookie1" 12000 0 Store.empty).2
      = (.ok (-lerrorCodes.EBUSY),
          (rgwlib.lock "lock:multi" "mycookie1" 12000 0 Store.empty).2) ∧
    rgwlib.assert_lock "lock:multi" "mycookie1" 500
        (rgwlib.lock "lock:multi" "mycookie1" 12000 0 Store.empty).2
      = (.ok 0, (rgwlib.lock "lock:multi" "mycookie1" 12000 0 Store.empty).2) :=
  ⟨by decide,
    lock_conflict_busy Store.empty 0 500 "lock:multi" "mycookie1" "mycookie2" 12000
      (by decide) (by decide) (by decide) (by decide)⟩

theorem lock_acquire_absent_witness :
    (Store.empty "lock:lock" = none ∧ (0 : Int) < 1000) ∧
    rgwlib.lock "lock:lock" "mycookie" 1000 7 Store.empty
      = (.ok 0, Function.update Store.empty "lock:lock"
          (some ⟨.str "mycookie", some (7 + 1000)⟩)) ∧
    rgwlib.assert_lock "lock:lock" "mycookie" 7
        (Function.update Store.empty "lock:lock"
          (some ⟨.str "mycookie", some (7 + 1000)⟩))
      = (.ok 0, Function.update Store.empty "lock:lock"
          (some ⟨.str "mycookie", some (7 + 1000)⟩)) :=
  ⟨by decide,
    lock_acquire_absent Store.empty 7 "lock:lock" "mycookie" 1000
      (by decide) (by decide)⟩

theorem lock_renew_witness :
    (fencedStore "lock:test_queue" = some ⟨.str "mycookie", some 500⟩ ∧
      Entry.live 250 ⟨.str "mycookie", some 500⟩ = true ∧ (0 : Int) < 500) ∧
    rgwlib.lock "lock:test_queue" "mycookie" 500 250 fencedStore
      = (.ok 0, Function.update fencedStore "lock:test_queue"
          (some ⟨.str "mycookie", some (250 + 500)⟩)) :=
  ⟨by decide,
    lock_renew fencedStore 250 "lock:test_queue" "mycookie" 500 (some 500)
      (by decide) (by decide) (by decide)⟩

theorem lock_takeover_after_expiry_witness :
    ("mycookie" ≠ "differentcookie" ∧ (0 : Int) < 500 ∧
      (rgwlib.lock "lock:renew" "mycookie" 500 0 Store.empty).1 = .ok 0 ∧
      (0 : Int) + 500 < 1000 ∧ (1001 : Int) ≤ 1000 + 500) ∧
    rgwlib.lock "lock:renew" "differentcookie" 500 1000
        (rgwlib.lock "lock:renew" "mycookie" 500 0 Store.empty).2
      = (.ok 0, Function.update
          (rgwlib.lock "lock:renew" "mycookie" 500 0 Store.empty).2 "lock:renew"
          (some ⟨.str "differentcookie", some (1000 + 500)⟩)) ∧
    rgwlib.lock "lock:renew" "mycookie" 500 1001
        (Function.update
          (rgwlib.lock "lock:renew" "mycookie" 500 0 Store.empty).2 "lock:renew"
          (some ⟨.str "differentcookie", some (1000 + 500)⟩))
      = (.ok (-lerrorCodes.EBUSY), Function.update
          (rgwlib.lock "lock:renew" "mycookie" 500 0 Store.empty).2 "lock:renew"
          (some ⟨.str "differentcookie", some (1000 + 500)⟩)) :=
  ⟨by decide,
    lock_takeover_after_expiry Store.empty 0 1000 1001 "lock:renew" "mycookie"
      "differentcookie" 500 (by decide) (by decide) (by decide) (by decide)
      (by decide)⟩

theorem unlock_owner_deletes_witness :
    (fencedStore "lock:test_queue" = some ⟨.str "mycookie", some 500⟩ ∧
      Entry.live 100 ⟨.str "mycookie", some 500⟩ = true) ∧
    rgwlib.unlock "lock:test_queue" "mycookie" 100 fencedStore
      = (.ok 0, Function.update fencedStore "lock:test_queue" none) ∧
    rgwlib.assert_lock "lock:test_queue" "mycookie" 101
        (Function.update fencedStore "lock:test_queue" none)
      = (.ok (-lerrorCodes.ENOENT),
          Function.update fencedStore "lock:test_queue" none) :=
  ⟨by decide,
    (unlock_owner_deletes fencedStore 100 "lock:test_queue" "mycookie" (some 500)
      (by decide) (by decide)).1,
    (unlock_owner_deletes fencedStore 100 "lock:test_queue" "mycookie" (some 500)
      (by decide) (by decide)).2 "mycookie" 101⟩

theorem unlock_failure_atomic_witness :
    rgwlib.unlock "lock:none" "mycookie" 100 fencedStore
      = (.ok (-lerrorCodes.ENOENT), fencedStore) ∧
    rgwlib.unlock "lock:test_queue" "mycookie" 501 fencedStore
      = (.ok (-lerrorCodes.ENOENT), fencedStore) ∧
    rgwlib.unlock "lock:test_queue" "othercookie" 100 fencedStore
      = (.ok (-lerrorCodes.EBUSY), fencedStore) ∧
    (rgwlib.unlock "queue:test_queue" "mycookie" 100 fencedStore).2 = fencedStore :=
  ⟨(unlock_failure_atomic fencedStore 100 "lock:none" "mycookie").1
      (Or.inl (by decide)),
    (unlock_failure_atomic fencedStore 501 "lock:test_queue" "mycookie").1
      (Or.inr ⟨⟨.str "mycookie", some 500⟩, by decide, by decide⟩),
    (unlock_failure_atomic fencedStore 100 "lock:test_queue" "othercookie").2.1
      ⟨.str "mycookie", some 500⟩ "mycookie" (by decide) (by decide) (by decide)
      (by decide),
    (unlock_failure_atomic fencedStore 100 "queue:test_queue" "mycookie").2.2
      (by decide)⟩

theorem lock_mutual_exclusion_witness :
    ((rgwlib.assert_lock "lock:multi" "mycookie1" 30
        (runCalls Store.empty multiLockCalls)).1 = .ok 0 ∧
      runCalls Store.empty multiLockCalls "lock:other" = none) ∧
    (∀ c2 : String,
      (rgwlib.assert_lock "lock:multi" c2 30
        (runCalls Store.empty multiLockCalls)).1 = .ok 0 → "mycookie1" = c2) ∧
    (∀ c : String,
      (rgwlib.assert_lock "lock:other" c 30
        (runCalls Store.empty multiLockCalls)).1 = .ok (-lerrorCodes.ENOENT)) :=
  ⟨by decide,
    fun c2 h => (lock_mutual_exclusion multiLockCalls "lock:multi" 30).1
      "mycookie1" c2 (by decide) h,
    (lock_mutual_exclusion multiLockCalls "lock:other" 30).2 (by decide)⟩

/-! ## Queue keys and list commands -/

theorem reserve_ne_queue (a b : String) : "reserve:" ++ a ≠ "queue:" ++ b := by
  intro h
  have h2 := congrArg String.data h
  simp only [String.data_append] at h2
  have h3 := congrArg List.head? h2
  simp at h3

theorem lock_ne_queue (a b : String) : "lock:" ++ a ≠ "queue:" ++ b := by
  intro h
  have h2 := congrArg String.data h
  simp only [String.data_append] at h2
  have h3 := congrArg List.head? h2
  simp at h3

theorem lock_ne_reserve (a b : String) : "lock:" ++ a ≠ "reserve:" ++ b := by
  intro h
  have h2 := congrArg String.data h
  simp only [String.data_append] at h2
  have h3 := congrArg List.head? h2
  simp at h3

theorem prefix_cancel (p a b : String) (h : p ++ a = p ++ b) : a = b := by
  have h2 := congrArg String.data h
  simp only [String.data_append] at h2
  exact String.ext (List.append_cancel_left h2)

theorem listAt_of_listOf {s : Store} {k : String} {xs : List String}
    (h : listOf s k = some xs) (now : Int) : listAt s now k = some xs := by
  unfold listOf at h
  unfold listAt lookupKey
  cases hs : s k with
  | none =>
    rw [hs] at h
    simpa using h
  | some e =>
    rw [hs] at h
    rcases e with ⟨v, d⟩
    cases v with
    | str c => simp at h
    | list ys =>
      cases d with
      | none => simpa [Entry.live] using h
      | some d => simp at h

theorem listOf_absent {s : Store} {k : String} (h : s k = none) :
    listOf s k = some [] := by
  simp [listOf, h]

theorem LPUSH_frame (k v : String) (now : Int) (s : Store) {k2 : String}
    (hk : k2 ≠ k) : (redis.LPUSH k v now s).2 k2 = s k2 := by
  unfold redis.LPUSH
  cases h : lookupKey s now k with
  | none => simp [Function.update_noteq hk]
  | some e =>
    rcases e with ⟨val, d⟩
    cases val with
    | str c => simp
    | list xs => simp [Function.update_noteq hk]

theorem RPOP_frame (k : String) (now : Int) (s : Store) {k2 : String}
    (hk : k2 ≠ k) : (redis.RPOP k now s).2 k2 = s k2 := by
  unfold redis.RPOP
  cases h : lookupKey s now k with
  | none => simp
  | some e =>
    rcases e with ⟨val, d⟩
    cases val with
    | str c => simp
    | list xs =>
      cases hl : xs.getLast? with
      | none => simp [hl]
      | some x => simp [hl, Function.update_noteq hk]

/-- `LPUSH` on a key that holds a list (or nothing) at `now`. -/
theorem LPUSH_listAt {s : Store} {now : Int} {k : String} {xs : List String}
    (h : listAt s now k = some xs) (v : String) :
    (redis.LPUSH k v now s).1 = .ok ((xs.length : Int) + 1) ∧
    listAt (redis.LPUSH k v now s).2 now k = some (v :: xs) := by
  unfold listAt at h
  unfold redis.LPUSH
  cases hl : lookupKey s now k with
  | none =>
    rw [hl] at h
    have hx : xs = [] := by simpa using h.symm
    subst hx
    simp [listAt, lookupKey, Entry.live]
  | some e =>
    rw [hl] at h
    rcases e with ⟨val, d⟩
    cases val with
    | str c => simp at h
    | list ys =>
      have hx : ys = xs := by simpa using h
      subst hx
      have hlive : Entry.live now ⟨.list ys, d⟩ = true := (lookupKey_eq_some.mp hl).2
      have hlive2 : Entry.live now ⟨.list (v :: ys), d⟩ = true := by
        simpa [Entry.live] using hlive
      simp [listAt, lookupKey, hlive2]

/-- `LPUSH` on a key that is absent or holds a list without a deadline. -/
theorem LPUSH_listOf {s : Store} {k : String} {xs : List String}
    (h : listOf s k = some xs) (v : String) (now : Int) :
    redis.LPUSH k v now s
      = (.ok ((xs.length : Int) + 1),
          Function.update s k (some ⟨.list (v :: xs), none⟩)) := by
  unfold listOf at h
  unfold redis.LPUSH lookupKey
  cases hs : s k with
  | none =>
    rw [hs] at h
    have hx : xs = [] := by simpa using h.symm
    subst hx
    simp
  | some e =>
    rw [hs] at h
    rcases e with ⟨val, d⟩
    cases val with
    | str c => simp at h
    | list ys =>
      cases d with
      | some d => simp at h
      | none =>
        have hx : ys = xs := by simpa using h
        subst hx
        simp [Entry.live]

theorem listOf_update_list (s : Store) (k : String) (xs : List String) :
    listOf (Function.update s k (some ⟨.list xs, none⟩)) k = some xs := by
  simp [listOf]

theorem listOf_frame {s s2 : Store} {k : String} (h : s2 k = s k) :
    listOf s2 k = listOf s k := by
  simp [listOf, h]

theorem listAt_frame {s s2 : Store} {k : String} (h : s2 k = s k) (now : Int) :
    listAt s2 now k = listAt s now k := by
  simp [listAt, lookupKey, h]

/-- `RPOP` on a key that holds a list (or nothing) at `now`. -/
theorem RPOP_listAt {s : Store} {now : Int} {k : String} {xs : List String}
    (h : listAt s now k = some xs) :
    (redis.RPOP k now s).1 = .ok xs.getLast? ∧
    listAt (redis.RPOP k now s).2 now k = some xs.dropLast := by
  have h0 := h
  unfold listAt at h
  unfold redis.RPOP
  cases hl : lookupKey s now k with
  | none =>
    rw [hl] at h
    have hx : xs = [] := by simpa using h.symm
    subst hx
    simpa using h0
  | some e =>
    rw [hl] at h
    rcases e with ⟨val, d⟩
    cases val with
    | str c => simp at h
    | list ys =>
      have hx : ys = xs := by simpa using h
      subst hx
      have hlive : Entry.live now ⟨.list ys, d⟩ = true := (lookupKey_eq_some.mp hl).2
      cases hg : ys.getLast? with
      | none =>
        have hy : ys = [] := List.getLast?_eq_none_iff.mp hg
        subst hy
        simpa using h0
      | some x =>
        by_cases hd : ys.dropLast = []
        · simp [hg, hd, listAt, lookupKey]
        · have hlive2 : Entry.live now ⟨.list ys.dropLast, d⟩ = true := by
            simpa [Entry.live] using hlive
          simp [hg, hd, listAt, lookupKey, hlive2]

/-- `RPOP` on a key that is absent or holds a list without a deadline. -/
theorem RPOP_listOf {s : Store} {k : String} {xs : List String}
    (h : listOf s k = some xs) (now : Int) :
    (redis.RPOP k now s).1 = .ok xs.getLast? ∧
    listOf (redis.RPOP k now s).2 k = some xs.dropLast := by
  have h0 := h
  unfold listOf at h
  unfold redis.RPOP lookupKey
  cases hs : s k with
  | none =>
    rw [hs] at h
    have hx : xs = [] := by simpa using h.symm
    subst hx
    simpa using h0
  | some e =>
    rw [hs] at h
    rcases e with ⟨val, d⟩
    cases val with
    | str c => simp at h
    | list ys =>
      cases d with
      | some d => simp at h
      | none =>
        have hx : ys = xs := by simpa using h
        subst hx
        cases hg : ys.getLast? with
        | none =>
          have hy : ys = [] := List.getLast?_eq_none_iff.mp hg
          subst hy
          simpa [Entry.live] using h0
        | some x =>
          by_cases hd : ys.dropLast = []
          · simp [Entry.live, hg, hd, listOf]
          · simp [Entry.live, hg, hd, listOf]

/-- `RPOP` on an empty or absent list changes nothing. -/
theorem RPOP_empty {s : Store} {now : Int} {k : String}
    (h : listAt s now k = some []) : redis.RPOP k now s = (.ok none, s) := by
  unfold listAt at h
  unfold redis.RPOP
  cases hl : lookupKey s now k with
  | none => simp
  | some e =>
    rw [hl] at h
    rcases e with ⟨val, d⟩
    cases val with
    | str c => simp at h
    | list ys =>
      have hx : ys = [] := by simpa using h
      subst hx
      simp

theorem Script.bind_of_ok {α β : Type} {m : Script α} {f : α → Script β}
    {now : Int} {s : Store} {a : α} (h : (m now s).1 = .ok a) :
    (m >>= f) now s = f a now (m now s).2 := by
  rw [Script.bind_run]
  unfold Script.bind
  cases hm : m now s with
  | mk r s1 =>
    rw [hm] at h
    simp only at h
    subst h
    rfl

theorem Script.bind_of_error {α β : Type} {m : Script α} {f : α → Script β}
    {now : Int} {s : Store} {e : String} (h : (m now s).1 = .error e) :
    (m >>= f) now s = (.error e, (m now s).2) := by
  rw [Script.bind_run]
  unfold Script.bind
  cases hm : m now s with
  | mk r s1 =>
    rw [hm] at h
    simp only at h
    subst h
    rfl

theorem Script.bind_state {α β : Type} (m : Script α) (f : α → Script β)
    (hf : ∀ a now s, (f a now s).2 = s) (now : Int) (s : Store) :
    ((m >>= f) now s).2 = (m now s).2 := by
  rw [Script.bind_run]
  unfold Script.bind
  cases hm : m now s with
  | mk r s1 =>
    cases r with
    | ok a => simpa using hf a now s1
    | error e => rfl

/-! ## The queue procedures, step by step -/

theorem reserve_state (key : String) (n now : Int) (s : Store) :
    (rgwlib.reserve key n now s).2
      = (redis.LPUSH ("reserve:" ++ key) (rgwlib.generateString n) now s).2 := by
  unfold rgwlib.reserve
  apply Script.bind_state
  intro a now s
  simp [LuaVal.truthy]

theorem reserve_code {key : String} {n now : Int} {s : Store} {m : Int}
    (h : (redis.LPUSH ("reserve:" ++ key) (rgwlib.generateString n) now s).1 = .ok m) :
    (rgwlib.reserve key n now s).1 = .ok 0 := by
  unfold rgwlib.reserve
  rw [Script.bind_of_ok h]
  simp [LuaVal.truthy]

theorem unreserve_state (key : String) (now : Int) (s : Store) :
    (rgwlib.unreserve key now s).2 = (redis.RPOP ("reserve:" ++ key) now s).2 := by
  unfold rgwlib.unreserve
  apply Script.bind_state
  intro a now s
  split <;> rfl

theorem unreserve_code {key : String} {now : Int} {s : Store} {v : Option String}
    (h : (redis.RPOP ("reserve:" ++ key) now s).1 = .ok v) :
    (rgwlib.unreserve key now s).1
      = .ok (if v.isNone then -lerrorCodes.ENOENT else 0) := by
  unfold rgwlib.unreserve
  rw [Script.bind_of_ok h]
  split <;> rfl

theorem commit_of_unreserve {key message : String} {now : Int} {s : Store}
    {c m : Int} (hu : (rgwlib.unreserve key now s).1 = .ok c)
    (hp : (redis.LPUSH ("queue:" ++ key) message now
      (rgwlib.unreserve key now s).2).1 = .ok m) :
    (rgwlib.commit key message now s).1 = .ok 0 ∧
    (rgwlib.commit key message now s).2
      = (redis.LPUSH ("queue:" ++ key) message now
          (rgwlib.unreserve key now s).2).2 := by
  unfold rgwlib.commit
  simp only []
  rw [Script.bind_of_ok hu, Script.bind_of_ok hp]
  simp [LuaVal.truthy]

theorem ack_state (key : String) (now : Int) (s : Store) :
    (rgwlib.ack key now s).2 = (redis.RPOP ("queue:" ++ key) now s).2 := by
  unfold rgwlib.ack
  apply Script.bind_state
  intro a now s
  rfl

theorem ack_code {key : String} {now : Int} {s : Store} {v : Option String}
    (h : (redis.RPOP ("queue:" ++ key) now s).1 = .ok v) :
    (rgwlib.ack key now s).1 = .ok 0 := by
  unfold rgwlib.ack
  simp only []
  rw [Script.bind_of_ok h]
  rfl

/-- `read` never changes the store. -/
theorem read_state (key : String) (now : Int) (s : Store) :
    (rgwlib.read key now s).2 = s := by
  unfold rgwlib.read
  rw [Script.bind_state _ _ (fun a now s => rfl)]
  unfold redis.LRANGE
  cases h : lookupKey s now ("queue:" ++ key) with
  | none => rfl
  | some e =>
    rcases e with ⟨val, d⟩
    cases val <;> rfl

theorem lrangeSlice_last (xs : List String) :
    LuaVal.first (redis.lrangeSlice xs (-1) (-1)) = oldest xs := by
  rcases List.eq_nil_or_concat xs with h | ⟨ys, a, h⟩
  · subst h
    simp [redis.lrangeSlice, oldest, LuaVal.first]
  · subst h
    have hlen : ((ys ++ [a]).length : Int) = (ys.length : Int) + 1 := by
      simp
    have h1 : max (-1 + ((ys.length : Int) + 1)) 0 = (ys.length : Int) := by
      rw [max_eq_left] <;> omega
    have h2 : ¬ ((ys.length : Int) > -1 + ((ys.length : Int) + 1) ∨
        (ys.length : Int) ≥ (ys.length : Int) + 1) := by omega
    have h3 : ¬ (-1 + ((ys.length : Int) + 1) ≥ (ys.length : Int) + 1) := by omega
    have h4 : (-1 + ((ys.length : Int) + 1) - (ys.length : Int) + 1).toNat = 1 := by
      have : -1 + ((ys.length : Int) + 1) - (ys.length : Int) + 1 = 1 := by omega
      rw [this]; rfl
    unfold redis.lrangeSlice
    simp only [hlen, h1, h2, h3, h4, if_true, if_false, Int.toNat_ofNat,
      show ((-1 : Int) < 0) from by decide]
    simp [oldest, LuaVal.first]

theorem read_listAt {s : Store} {now : Int} {key : String} {ms : List String}
    (h : listAt s now ("queue:" ++ key) = some ms) :
    rgwlib.read key now s = (.ok (oldest ms), s) := by
  unfold listAt at h
  unfold rgwlib.read
  rw [Script.bind_run]
  unfold Script.bind redis.LRANGE
  cases hl : lookupKey s now ("queue:" ++ key) with
  | none =>
    rw [hl] at h
    have hx : ms = [] := by simpa using h.symm
    subst hx
    simp [oldest, LuaVal.first]
  | some e =>
    rw [hl] at h
    rcases e with ⟨val, d⟩
    cases val with
    | str c => simp at h
    | list ys =>
      have hx : ys = ms := by simpa using h
      subst hx
      simp [lrangeSlice_last]

theorem reserve_frame (key : String) (n now : Int) (s : Store) {k2 : String}
    (hk : k2 ≠ "reserve:" ++ key) : (rgwlib.reserve key n now s).2 k2 = s k2 := by
  rw [reserve_state]
  exact LPUSH_frame _ _ _ _ hk

theorem unreserve_frame (key : String) (now : Int) (s : Store) {k2 : String}
    (hk : k2 ≠ "reserve:" ++ key) : (rgwlib.unreserve key now s).2 k2 = s k2 := by
  rw [unreserve_state]
  exact RPOP_frame _ _ _ hk

theorem ack_frame (key : String) (now : Int) (s : Store) {k2 : String}
    (hk : k2 ≠ "queue:" ++ key) : (rgwlib.ack key now s).2 k2 = s k2 := by
  rw [ack_state]
  exact RPOP_frame _ _ _ hk

theorem reserve_listOf {s : Store} {key : String} {rs : List String}
    (h : listOf s ("reserve:" ++ key) = some rs) (n now : Int) :
    (rgwlib.reserve key n now s).1 = .ok 0 ∧
    listOf (rgwlib.reserve key n now s).2 ("reserve:" ++ key)
      = some (rgwlib.generateString n :: rs) := by
  have hp := LPUSH_listOf h (rgwlib.generateString n) now
  refine ⟨reserve_code (m := (rs.length : Int) + 1) (by rw [hp]), ?_⟩
  rw [reserve_state, hp]
  exact listOf_update_list _ _ _

theorem unreserve_listOf {s : Store} {key : String} {rs : List String}
    (h : listOf s ("reserve:" ++ key) = some rs) (now : Int) :
    (rgwlib.unreserve key now s).1
      = .ok (if rs = [] then -lerrorCodes.ENOENT else 0) ∧
    listOf (rgwlib.unreserve key now s).2 ("reserve:" ++ key) = some rs.dropLast := by
  have hp := RPOP_listOf h now
  refine ⟨?_, ?_⟩
  · rw [unreserve_code hp.1]
    by_cases hr : rs = []
    · subst hr
      simp
    · have hne : rs.getLast?.isNone = false := by
        cases hg : rs.getLast? with
        | none => exact absurd (List.getLast?_eq_none_iff.mp hg) hr
        | some x => rfl
      simp [hr, hne]
  · rw [unreserve_state]
    exact hp.2

theorem unreserve_empty {s : Store} {now : Int} {key : String}
    (h : listAt s now ("reserve:" ++ key) = some []) :
    rgwlib.unreserve key now s = (.ok (-lerrorCodes.ENOENT), s) := by
  have hp := RPOP_empty h
  have h1 : (redis.RPOP ("reserve:" ++ key) now s).1 = .ok none := by rw [hp]
  have hc := unreserve_code h1
  have hs := unreserve_state key now s
  rw [hp] at hs
  exact Prod.ext (by simpa using hc) hs

theorem commit_frame (key message : String) (now : Int) (s : Store) {k2 : String}
    (hr : k2 ≠ "reserve:" ++ key) (hq : k2 ≠ "queue:" ++ key) :
    (rgwlib.commit key message now s).2 k2 = s k2 := by
  unfold rgwlib.commit
  rw [Script.bind_run]
  unfold Script.bind
  cases hu : rgwlib.unreserve key now s with
  | mk r s1 =>
    have hs1 : s1 k2 = s k2 := by
      have := unreserve_frame key now s hr
      rw [hu] at this
      exact this
    cases r with
    | error e => exact hs1
    | ok c =>
      simp only []
      rw [Script.bind_state _ _ (fun a now s => by simp [LuaVal.truthy])]
      rw [LPUSH_frame _ _ _ _ hq]
      exact hs1

theorem commit_listOf {s : Store} {key : String} {rs ms : List String}
    (hr : listOf s ("reserve:" ++ key) = some rs)
    (hm : listOf s ("queue:" ++ key) = some ms) (message : String) (now : Int) :
    (rgwlib.commit key message now s).1 = .ok 0 ∧
    listOf (rgwlib.commit key message now s).2 ("reserve:" ++ key)
      = some rs.dropLast ∧
    listOf (rgwlib.commit key message now s).2 ("queue:" ++ key)
      = some (message :: ms) := by
  have hu := unreserve_listOf hr now
  have hq1 : listOf (rgwlib.unreserve key now s).2 ("queue:" ++ key) = some ms := by
    rw [listOf_frame (unreserve_frame key now s (reserve_ne_queue key key).symm)]
    exact hm
  have hp := LPUSH_listOf hq1 message now
  have hc := @commit_of_unreserve key message now s _ ((ms.length : Int) + 1)
    hu.1 (by rw [hp])
  refine ⟨hc.1, ?_, ?_⟩
  · rw [hc.2, listOf_frame (LPUSH_frame _ _ _ _ (reserve_ne_queue key key))]
    exact hu.2
  · rw [hc.2, hp]
    exact listOf_update_list _ _ _

theorem ack_listOf {s : Store} {key : String} {ms : List String}
    (h : listOf s ("queue:" ++ key) = some ms) (now : Int) :
    (rgwlib.ack key now s).1 = .ok 0 ∧
    listOf (rgwlib.ack key now s).2 ("queue:" ++ key) = some ms.dropLast := by
  have hp := RPOP_listOf h now
  refine ⟨ack_code hp.1, ?_⟩
  rw [ack_state]
  exact hp.2

/-- The code the client returns for a procedure that answered the number `n`. -/
theorem client_code_of_ok {r : Except String Int} {n : Int} (h : r = .ok n) :
    (do_redis_func (r.map LuaVal.num)).errorCode = n := by
  subst h
  rfl

/-- When the key named like the queue is absent, the client `locked_read`
returns -ENOENT with an empty result and leaves the store alone. -/
theorem locked_read_absent_key {s : Store} {now : Int} {key : String}
    (h : lookupKey s now key = none) (cookie : String) :
    redisqueue.locked_read key cookie now s = ((-lerrorCodes.ENOENT, ""), s) := by
  unfold redisqueue.locked_read
  rw [locked_read_run, h]
  simp [assertOutcome, do_redis_func, lerrorCodes.ENOENT]

/-! ## Fenced reads without a lock -/

/-- C11 (the code at the failing input): no record exists under
`lock:test_queue`, so `assert_lock("lock:test_queue", "mycookie")` answers
-ENOENT, yet `locked_read("test_queue", "mycookie")` answers the message `m1`
and the client returns 0 with `m1`, because the key `test_queue` itself holds
the cookie. -/
theorem locked_read_without_lock_succeeds :
    selfLockedStore "lock:test_queue" = none ∧
    (rgwlib.assert_lock "lock:test_queue" "mycookie" 1 selfLockedStore).1
      = .ok (-lerrorCodes.ENOENT) ∧
    (rgwlib.locked_read "test_queue" "mycookie" 1 selfLockedStore).1
      = .ok (.str "m1") ∧
    (redisqueue.locked_read "test_queue" "mycookie" 1 selfLockedStore).1
      = (0, "m1") := by
  refine ⟨rfl, rfl, rfl, rfl⟩

/-! ## Reservation queue -/

/-- C12: in a state with reservations `rs` and message list `ms`,
`commit(name, payload)` answers 0, leaves `max(|rs| - 1, 0)` reservations (the
oldest one is released) and makes the message list `payload :: ms` (the payload
is the newest entry, length `|ms| + 1`); with no reservation it still
succeeds and the count stays 0; and after `reserve` followed by `commit` the
reservation count is what it was before the `reserve`. -/
theorem commit_releases_and_appends (s : Store) (now : Int) (name payload : String)
    (rs ms : List String)
    (hr : listOf s ("reserve:" ++ name) = some rs)
    (hm : listOf s ("queue:" ++ name) = some ms) :
    (rgwlib.commit name payload now s).1 = .ok 0 ∧
    (redisqueue.commit name payload now s).1 = 0 ∧
    (redisqueue.commit name payload now s).2 = (rgwlib.commit name payload now s).2 ∧
    listOf (rgwlib.commit name payload now s).2 ("reserve:" ++ name)
      = some rs.dropLast ∧
    (rs.dropLast.length : Int) = max ((rs.length : Int) - 1) 0 ∧
    listOf (rgwlib.commit name payload now s).2 ("queue:" ++ name)
      = some (payload :: ms) ∧
    (payload :: ms).length = ms.length + 1 ∧
    (∀ (size t1 t2 : Int), ∃ rs2,
      listOf (rgwlib.commit name payload t2 (rgwlib.reserve name size t1 s).2).2
        ("reserve:" ++ name) = some rs2 ∧ rs2.length = rs.length) := by
  have hc := commit_listOf hr hm payload now
  refine ⟨hc.1, client_code_of_ok hc.1, rfl, hc.2.1, ?_, hc.2.2, rfl, ?_⟩
  · rw [List.length_dropLast]
    omega
  · intro size t1 t2
    have h1 := reserve_listOf hr size t1
    have hq1 : listOf (rgwlib.reserve name size t1 s).2 ("queue:" ++ name)
        = some ms := by
      rw [listOf_frame (reserve_frame name size t1 s (reserve_ne_queue name name).symm)]
      exact hm
    have h2 := commit_listOf h1.2 hq1 payload t2
    exact ⟨_, h2.2.1, by simp⟩

/-- C13: in a state with reservations `rs` (any number of them),
`reserve(name, size)` for every size answers 0, puts one more reservation in
front of `rs` and leaves the entry of the message list untouched; the client
`reserve` is the call with size 120. -/
theorem reserve_adds_one (s : Store) (now : Int) (name : String) (size : Int)
    (rs : List String) (hr : listOf s ("reserve:" ++ name) = some rs) :
    (rgwlib.reserve name size now s).1 = .ok 0 ∧
    listOf (rgwlib.reserve name size now s).2 ("reserve:" ++ name)
      = some (rgwlib.generateString size :: rs) ∧
    (rgwlib.generateString size :: rs).length = rs.length + 1 ∧
    (rgwlib.reserve name size now s).2 ("queue:" ++ name) = s ("queue:" ++ name) ∧
    (redisqueue.reserve name now s).1 = 0 ∧
    (redisqueue.reserve name now s).2 = (rgwlib.reserve name 120 now s).2 := by
  have h1 := reserve_listOf hr size now
  have h2 := reserve_listOf hr 120 now
  exact ⟨h1.1, h1.2, rfl,
    reserve_frame name size now s (reserve_ne_queue name name).symm,
    client_code_of_ok h2.1, rfl⟩

/-- C14: in a state with reservations `rs`, `abort(name)` with at least one
reservation answers 0, removes exactly one reservation and leaves the message
list untouched; `reserve(name)` followed by `abort(name)` restores the
reservation count and the message list; with no reservation `abort` answers
-ENOENT and changes nothing; the client call leaves the store the procedure
leaves. -/
theorem abort_releases_one (s : Store) (now : Int) (name : String)
    (rs : List String) (hr : listOf s ("reserve:" ++ name) = some rs) :
    (rs ≠ [] →
      (rgwlib.abort name now s).1 = .ok 0 ∧
      (redisqueue.abort name now s).1 = 0 ∧
      listOf (rgwlib.abort name now s).2 ("reserve:" ++ name) = some rs.dropLast ∧
      rs.dropLast.length + 1 = rs.length) ∧
    (rgwlib.abort name now s).2 ("queue:" ++ name) = s ("queue:" ++ name) ∧
    (∀ (size t1 t2 : Int),
      (rgwlib.abort name t2 (rgwlib.reserve name size t1 s).2).1 = .ok 0 ∧
      (∃ rs2, listOf (rgwlib.abort name t2 (rgwlib.reserve name size t1 s).2).2
          ("reserve:" ++ name) = some rs2 ∧ rs2.length = rs.length) ∧
      (rgwlib.abort name t2 (rgwlib.reserve name size t1 s).2).2 ("queue:" ++ name)
        = s ("queue:" ++ name)) ∧
    (rs = [] →
      rgwlib.abort name now s = (.ok (-lerrorCodes.ENOENT), s) ∧
      redisqueue.abort name now s = (-lerrorCodes.ENOENT, s)) ∧
    (redisqueue.abort name now s).2 = (rgwlib.abort name now s).2 := by
  have hu := unreserve_listOf hr now
  refine ⟨?_, ?_, ?_, ?_, rfl⟩
  · intro hne
    have hcode : (rgwlib.abort name now s).1 = .ok 0 := by
      have := hu.1
      simpa [hne] using this
    refine ⟨hcode, client_code_of_ok hcode, hu.2, ?_⟩
    rw [List.length_dropLast]
    have : 0 < rs.length := List.length_pos.mpr hne
    omega
  · exact unreserve_frame name now s (reserve_ne_queue name name).symm
  · intro size t1 t2
    have h1 := reserve_listOf hr size t1
    have h2 := unreserve_listOf h1.2 t2
    refine ⟨?_, ⟨_, h2.2, by simp⟩, ?_⟩
    · have := h2.1
      simpa using this
    · have hf1 := unreserve_frame name t2 (rgwlib.reserve name size t1 s).2
        (reserve_ne_queue name name).symm
      have hf2 := reserve_frame name size t1 s (reserve_ne_queue name name).symm
      exact hf1.trans hf2
  · intro he
    subst he
    have hA := unreserve_empty (listAt_of_listOf hr now)
    refine ⟨hA, ?_⟩
    unfold redisqueue.abort rgwlib.abort
    rw [hA]
    rfl

/-- C15: `read(name)` leaves the store unchanged in every state; it answers
the oldest message (the last element of the message list), or nothing
(the client sees code 0 and the empty string) when the queue has no message;
and any number of consecutive `read` calls answer the same. -/
theorem read_nondestructive (s : Store) (now : Int) (name : String) :
    (rgwlib.read name now s).2 = s ∧
    (redisqueue.read name now s).2 = s ∧
    (∀ ms : List String, listAt s now ("queue:" ++ name) = some ms →
      (rgwlib.read name now s).1 = .ok (oldest ms)) ∧
    (∀ (ms : List String) (m : String),
      listAt s now ("queue:" ++ name) = some (ms ++ [m]) →
      (redisqueue.read name now s).1 = (0, m)) ∧
    (listAt s now ("queue:" ++ name) = some [] →
      (rgwlib.read name now s).1 = .ok .nil ∧
      (redisqueue.read name now s).1 = (0, "")) ∧
    (∀ n : Nat,
      rgwlib.read name now (Nat.iterate (fun st => (rgwlib.read name now st).2) n s)
        = rgwlib.read name now s) := by
  have hst := read_state name now s
  refine ⟨hst, ?_, ?_, ?_, ?_, ?_⟩
  · unfold redisqueue.read
    simp only []
    split <;> exact hst
  · intro ms h
    rw [read_listAt h]
  · intro ms m h
    unfold redisqueue.read
    rw [read_listAt h]
    simp [oldest, do_redis_func]
  · intro h
    unfold redisqueue.read
    rw [read_listAt h]
    simp [oldest, do_redis_func]
  · intro n
    have hfix : Nat.iterate (fun st => (rgwlib.read name now st).2) n s = s := by
      induction n with
      | zero => rfl
      | succ k ih =>
        rw [Function.iterate_succ_apply', ih]
        exact hst
    rw [hfix]

/-! ## Sequences of producer calls -/

theorem queueCall_frame (key : String) (c : QueueCall) (now : Int) (s : Store)
    {k2 : String} (hr : k2 ≠ "reserve:" ++ key) (hq : k2 ≠ "queue:" ++ key) :
    ((c.script key) now s).2 k2 = s k2 := by
  cases c with
  | reserve size => exact reserve_frame key size now s hr
  | abort => exact unreserve_frame key now s hr
  | commit payload => exact commit_frame key payload now s hr hq

theorem runQueueCalls_frame (key : String) (calls : List (Int × QueueCall))
    (s : Store) {k2 : String} (hr : k2 ≠ "reserve:" ++ key)
    (hq : k2 ≠ "queue:" ++ key) : runQueueCalls key s calls k2 = s k2 := by
  induction calls generalizing s with
  | nil => rfl
  | cons tc rest ih =>
    rcases tc with ⟨t, c⟩
    unfold runQueueCalls
    rw [ih, queueCall_frame key c t s hr hq]

/-- Producer calls keep both keys of the queue well-formed and put the
committed payloads, newest first, in front of the message list. -/
theorem runQueueCalls_listOf (key : String) (calls : List (Int × QueueCall))
    (s : Store) (rs ms : List String)
    (hr : listOf s ("reserve:" ++ key) = some rs)
    (hm : listOf s ("queue:" ++ key) = some ms) :
    (∃ rs2, listOf (runQueueCalls key s calls) ("reserve:" ++ key) = some rs2) ∧
    listOf (runQueueCalls key s calls) ("queue:" ++ key)
      = some ((committed calls).reverse ++ ms) := by
  induction calls generalizing s rs ms with
  | nil => exact ⟨⟨rs, hr⟩, by simpa [committed, runQueueCalls] using hm⟩
  | cons tc rest ih =>
    rcases tc with ⟨t, c⟩
    cases c with
    | reserve size =>
      have h1 := reserve_listOf hr size t
      have hq1 : listOf (rgwlib.reserve key size t s).2 ("queue:" ++ key)
          = some ms := by
        rw [listOf_frame (reserve_frame key size t s (reserve_ne_queue key key).symm)]
        exact hm
      have := ih (rgwlib.reserve key size t s).2 _ _ h1.2 hq1
      simpa [runQueueCalls, QueueCall.script, committed] using this
    | abort =>
      have h1 := unreserve_listOf hr t
      have hq1 : listOf (rgwlib.unreserve key t s).2 ("queue:" ++ key)
          = some ms := by
        rw [listOf_frame (unreserve_frame key t s (reserve_ne_queue key key).symm)]
        exact hm
      have := ih (rgwlib.unreserve key t s).2 _ _ h1.2 hq1
      simpa [runQueueCalls, QueueCall.script, committed, rgwlib.abort] using this
    | commit payload =>
      have h1 := commit_listOf hr hm payload t
      have := ih (rgwlib.commit key payload t s).2 _ _ h1.2.1 h1.2.2
      simpa [runQueueCalls, QueueCall.script, committed] using this

theorem queue_status_listOf {s : Store} {name : String} {rs ms : List String}
    (hr : listOf s ("reserve:" ++ name) = some rs)
    (hm : listOf s ("queue:" ++ name) = some ms) (res : Int × Int) (now : Int) :
    redisqueue.queue_status 0 name res now s
      = ((0, ((rs.length : Int), (ms.length : Int))), s) := by
  have llen : ∀ (k : String) (xs : List String), listOf s k = some xs →
      (redis.LLEN k now s).1 = .ok (xs.length : Int) := by
    intro k xs h
    have h2 := listAt_of_listOf h now
    unfold listAt at h2
    unfold redis.LLEN
    cases hl : lookupKey s now k with
    | none =>
      rw [hl] at h2
      have hx : xs = [] := by simpa using h2.symm
      subst hx
      rfl
    | some e =>
      rw [hl] at h2
      rcases e with ⟨val, d⟩
      cases val with
      | str c => simp at h2
      | list ys =>
        have hx : ys = xs := by simpa using h2
        subst hx
        rfl
  unfold redisqueue.queue_status
  rw [llen _ _ hr, llen _ _ hm]
  simp

theorem client_read_listOf {s : Store} {key : String} {ms : List String}
    (h : listOf s ("queue:" ++ key) = some ms) (now : Int) :
    redisqueue.read key now s
      = ((0, match ms.getLast? with
            | some m => m
            | none => ""), s) := by
  unfold redisqueue.read
  rw [read_listAt (listAt_of_listOf h now)]
  cases hg : ms.getLast? with
  | none => simp [oldest, hg, do_redis_func]
  | some m => simp [oldest, hg, do_redis_func]

/-- C16: FIFO.  Starting with reservations `rs` and message list `ms`, after any
sequence of `reserve`, `abort` and `commit` calls on the queue (no removal),
`read` answers the last element of the committed payloads, newest first, put
in front of `ms`: with an empty queue at the start and payloads `p :: ps`
committed in that order it answers `p`, and a message that was already in the
queue stays the one that is read. -/
theorem read_fifo (key : String) (calls : List (Int × QueueCall)) (s : Store)
    (rs ms : List String) (now : Int)
    (hr : listOf s ("reserve:" ++ key) = some rs)
    (hm : listOf s ("queue:" ++ key) = some ms) :
    rgwlib.read key now (runQueueCalls key s calls)
      = (.ok (oldest ((committed calls).reverse ++ ms)), runQueueCalls key s calls) ∧
    (∀ (p : String) (ps : List String), ms = [] → committed calls = p :: ps →
      (rgwlib.read key now (runQueueCalls key s calls)).1 = .ok (.str p) ∧
      (redisqueue.read key now (runQueueCalls key s calls)).1 = (0, p)) ∧
    (∀ (m : String) (ms0 : List String), ms = ms0 ++ [m] →
      (rgwlib.read key now (runQueueCalls key s calls)).1 = .ok (.str m) ∧
      (redisqueue.read key now (runQueueCalls key s calls)).1 = (0, m)) := by
  have hrun := (runQueueCalls_listOf key calls s rs ms hr hm).2
  have hread := read_listAt (listAt_of_listOf hrun now)
  refine ⟨hread, ?_, ?_⟩
  · intro p ps hnil hc
    subst hnil
    rw [hc] at hrun hread
    refine ⟨by rw [hread]; simp [oldest], ?_⟩
    rw [client_read_listOf hrun]
    simp
  · intro m ms0 hms
    subst hms
    refine ⟨by rw [hread]; simp [oldest, ← List.append_assoc], ?_⟩
    rw [client_read_listOf hrun]
    simp [← List.append_assoc]

/-- C17: the round trip.  Starting from a queue with no message and no
reservation, for every payload `m` and every call times: `reserve` returns 0
and the status is (1, 0); `commit(m)` returns 0 and the status is (0, 1);
`read` returns `m`; `ack` returns 0 and the status is (0, 0); a following
`read` returns the empty result. -/
theorem round_trip_scenario (q m : String) (t : Nat → Int) (s0 : Store)
    (hr : s0 ("reserve:" ++ q) = none) (hm : s0 ("queue:" ++ q) = none) :
    roundTripTrace q m t s0
      = (0, (0, (1, 0)), 0, (0, (0, 1)), (0, m), 0, (0, (0, 0)), (0, "")) := by
  have hne : "queue:" ++ q ≠ "reserve:" ++ q := (reserve_ne_queue q q).symm
  have hr0 := listOf_absent hr
  have hm0 := listOf_absent hm
  -- reserve
  have h1 := reserve_listOf hr0 120 (t 0)
  have q1 : listOf (rgwlib.reserve q 120 (t 0) s0).2 ("queue:" ++ q) = some [] := by
    rw [listOf_frame (reserve_frame q 120 (t 0) s0 hne)]
    exact hm0
  have e1 : redisqueue.reserve q (t 0) s0 = (0, (rgwlib.reserve q 120 (t 0) s0).2) :=
    Prod.ext (client_code_of_ok h1.1) rfl
  obtain ⟨s1, hs1⟩ : ∃ x, x = (rgwlib.reserve q 120 (t 0) s0).2 := ⟨_, rfl⟩
  rw [← hs1] at h1 q1 e1
  have e2 := queue_status_listOf h1.2 q1 (-1, -1) (t 1)
  -- commit
  have h3 := commit_listOf h1.2 q1 m (t 2)
  have e3 : redisqueue.commit q m (t 2) s1 = (0, (rgwlib.commit q m (t 2) s1).2) :=
    Prod.ext (client_code_of_ok h3.1) rfl
  obtain ⟨s2, hs2⟩ : ∃ x, x = (rgwlib.commit q m (t 2) s1).2 := ⟨_, rfl⟩
  rw [← hs2] at h3 e3
  have e4 := queue_status_listOf h3.2.1 h3.2.2 (-1, -1) (t 3)
  -- read
  have e5 := client_read_listOf h3.2.2 (t 4)
  -- ack
  have h6 := ack_listOf h3.2.2 (t 5)
  have r6 : listOf (rgwlib.ack q (t 5) s2).2 ("reserve:" ++ q)
      = some [rgwlib.generateString 120].dropLast := by
    rw [listOf_frame (ack_frame q (t 5) s2 (reserve_ne_queue q q))]
    exact h3.2.1
  have e6 : redisqueue.ack q (t 5) s2 = (0, (rgwlib.ack q (t 5) s2).2) :=
    Prod.ext (client_code_of_ok h6.1) rfl
  obtain ⟨s3, hs3⟩ : ∃ x, x = (rgwlib.ack q (t 5) s2).2 := ⟨_, rfl⟩
  rw [← hs3] at h6 r6 e6
  have e7 := queue_status_listOf r6 h6.2 (-1, -1) (t 6)
  have e8 := client_read_listOf h6.2 (t 7)
  unfold roundTripTrace
  simp only [e1, e2, e3, e4, e5, e6, e7, e8]
  simp

/-- C18: with a message list whose oldest message is `m`, `ack(name)` returns
0 and removes exactly `m` (the message `read` returns), leaving the other
messages in order and the reservations untouched; `locked_ack(name, cookie)`
does the same when `cookie` holds `lock:name`; and when the lock check answers
another status, `locked_ack` returns that status and changes nothing; the
client calls leave the store the procedures leave. -/
theorem ack_removes_oldest (s : Store) (now : Int) (name : String)
    (ms : List String) (m : String)
    (hm : listOf s ("queue:" ++ name) = some (ms ++ [m])) :
    (redisqueue.read name now s).1 = (0, m) ∧
    (rgwlib.ack name now s).1 = .ok 0 ∧
    (redisqueue.ack name now s).1 = 0 ∧
    listOf (rgwlib.ack name now s).2 ("queue:" ++ name) = some ms ∧
    ms.length + 1 = (ms ++ [m]).length ∧
    (rgwlib.ack name now s).2 ("reserve:" ++ name) = s ("reserve:" ++ name) ∧
    (∀ cookie : String,
      (rgwlib.assert_lock ("lock:" ++ name) cookie now s).1 = .ok 0 →
      rgwlib.locked_ack name cookie now s = rgwlib.ack name now s ∧
      (redisqueue.locked_ack name cookie now s).1 = 0) ∧
    (∀ (cookie : String) (c : Int),
      (rgwlib.assert_lock ("lock:" ++ name) cookie now s).1 = .ok c → c ≠ 0 →
      rgwlib.locked_ack name cookie now s = (.ok c, s) ∧
      redisqueue.locked_ack name cookie now s = (c, s)) ∧
    (redisqueue.ack name now s).2 = (rgwlib.ack name now s).2 ∧
    (∀ cookie : String,
      (redisqueue.locked_ack name cookie now s).2
        = (rgwlib.locked_ack name cookie now s).2) := by
  have ha := ack_listOf hm now
  have hst : ∀ cookie : String,
      (rgwlib.assert_lock ("lock:" ++ name) cookie now s).2 = s := by
    intro cookie
    rw [assert_lock_run]
  refine ⟨?_, ha.1, client_code_of_ok ha.1, ?_, by simp, ?_, ?_, ?_, rfl,
    fun _ => rfl⟩
  · rw [client_read_listOf hm]
    simp
  · simpa using ha.2
  · exact ack_frame name now s (reserve_ne_queue name name)
  · intro cookie hok
    have hl : rgwlib.locked_ack name cookie now s = rgwlib.ack name now s := by
      unfold rgwlib.locked_ack
      rw [Script.bind_of_ok hok, hst cookie]
      simp
    refine ⟨hl, ?_⟩
    unfold redisqueue.locked_ack
    rw [hl]
    exact client_code_of_ok ha.1
  · intro cookie c hc hne
    have hl : rgwlib.locked_ack name cookie now s = (.ok c, s) := by
      unfold rgwlib.locked_ack
      rw [Script.bind_of_ok hc, hst cookie]
      simp [hne]
    refine ⟨hl, ?_⟩
    unfold redisqueue.locked_ack
    rw [hl]
    rfl

/-! ## Messages are removed by acknowledgement only -/

theorem lock_frame (name cookie : String) (ttl now : Int) (s : Store) {k2 : String}
    (hk : k2 ≠ name) : (rgwlib.lock name cookie ttl now s).2 k2 = s k2 := by
  rw [lock_run]
  cases h : lookupKey s now name with
  | none =>
    by_cases ht : ttl ≤ 0 <;> simp [lockOutcome, ht, Function.update_noteq hk]
  | some e =>
    rcases e with ⟨val, d⟩
    cases val with
    | list xs => simp [lockOutcome]
    | str v =>
      by_cases hv : v = cookie
      · by_cases ht : ttl ≤ 0 <;>
          simp [lockOutcome, hv, ht, Function.update_noteq hk]
      · simp [lockOutcome, hv]

theorem unlock_frame (name cookie : String) (now : Int) (s : Store) {k2 : String}
    (hk : k2 ≠ name) : (rgwlib.unlock name cookie now s).2 k2 = s k2 := by
  rw [unlock_run]
  cases h : lookupKey s now name with
  | none => simp [unlockOutcome]
  | some e =>
    rcases e with ⟨val, d⟩
    cases val with
    | list xs => simp [unlockOutcome]
    | str v =>
      by_cases hv : v = cookie
      · simp [unlockOutcome, hv, Function.update_noteq hk]
      · simp [unlockOutcome, hv]

/-- `locked_read` never changes the store. -/
theorem locked_read_state (key cookie : String) (now : Int) (s : Store) :
    (rgwlib.locked_read key cookie now s).2 = s := by
  rw [locked_read_run]
  cases h : assertOutcome cookie (lookupKey s now key) with
  | error e => rfl
  | ok n =>
    by_cases hn : n = 0
    · simp [hn, read_state]
    · simp [hn]

/-- `LPUSH` on a key that holds a string changes nothing. -/
theorem LPUSH_wrong_type {s : Store} {now : Int} {k : String}
    (h : listAt s now k = none) (v : String) : (redis.LPUSH k v now s).2 = s := by
  unfold listAt at h
  unfold redis.LPUSH
  cases hl : lookupKey s now k with
  | none =>
    rw [hl] at h
    simp at h
  | some e =>
    rw [hl] at h
    rcases e with ⟨val, d⟩
    cases val with
    | str c => rfl
    | list ys => simp at h

theorem commit_state_of_error {key message : String} {now : Int} {s : Store}
    {e : String} (h : (rgwlib.unreserve key now s).1 = .error e) :
    (rgwlib.commit key message now s).2 = (rgwlib.unreserve key now s).2 := by
  unfold rgwlib.commit
  simp only []
  rw [Script.bind_of_error h]

theorem commit_state_of_ok {key message : String} {now : Int} {s : Store}
    {c : Int} (h : (rgwlib.unreserve key now s).1 = .ok c) :
    (rgwlib.commit key message now s).2
      = (redis.LPUSH ("queue:" ++ key) message now (rgwlib.unreserve key now s).2).2 := by
  unfold rgwlib.commit
  simp only []
  rw [Script.bind_of_ok h]
  rw [Script.bind_state _ _ (fun a now s => by simp [LuaVal.truthy])]

/-- C19: for every state, queue name `q` and call of `lock`, `unlock` or
`assert_lock` (on a lock name other than the queue key of `q`), `reserve`,
`unreserve`, `commit`, `read` or `locked_read`, the entry holding the message
list of `q` is the same after the call, or the call is `commit(q, p)` and the
message list after it is the list before with `p` added in front; `read` and
`locked_read` leave the whole store unchanged. -/
theorem messages_only_removed_by_ack (s : Store) (now : Int) (q : String)
    (call : LibCall)
    (hlock : ∀ n : String, call.lockName = some n → n ≠ "queue:" ++ q) :
    (call.after now s ("queue:" ++ q) = s ("queue:" ++ q) ∨
      ∃ (p : String) (ms : List String), call = .commit q p ∧
        listAt s now ("queue:" ++ q) = some ms ∧
        listAt (call.after now s) now ("queue:" ++ q) = some (p :: ms)) ∧
    (∀ key : String, (LibCall.read key).after now s = s) ∧
    (∀ key cookie : String, (LibCall.locked_read key cookie).after now s = s) := by
  have hqr : ∀ key : String, "queue:" ++ q ≠ "reserve:" ++ key :=
    fun key => (reserve_ne_queue key q).symm
  refine ⟨?_, fun key => read_state key now s,
    fun key cookie => locked_read_state key cookie now s⟩
  cases call with
  | lock name cookie ttl =>
    exact Or.inl (lock_frame name cookie ttl now s (hlock name rfl).symm)
  | unlock name cookie =>
    exact Or.inl (unlock_frame name cookie now s (hlock name rfl).symm)
  | assert_lock name cookie =>
    left
    show (rgwlib.assert_lock name cookie now s).2 _ = _
    rw [assert_lock_run]
  | reserve key size => exact Or.inl (reserve_frame key size now s (hqr key))
  | unreserve key => exact Or.inl (unreserve_frame key now s (hqr key))
  | read key =>
    left
    show (rgwlib.read key now s).2 _ = _
    rw [read_state]
  | locked_read key cookie =>
    left
    show (rgwlib.locked_read key cookie now s).2 _ = _
    rw [locked_read_state]
  | commit key p =>
    by_cases hk : key = q
    · subst hk
      have hfr := unreserve_frame key now s (hqr key)
      cases hu : (rgwlib.unreserve key now s).1 with
      | error e =>
        left
        show (rgwlib.commit key p now s).2 _ = _
        rw [commit_state_of_error hu]
        exact hfr
      | ok c =>
        have hst := @commit_state_of_ok key p now s c hu
        cases hl : listAt (rgwlib.unreserve key now s).2 now ("queue:" ++ key) with
        | none =>
          left
          show (rgwlib.commit key p now s).2 _ = _
          rw [hst, LPUSH_wrong_type hl]
          exact hfr
        | some ms =>
          right
          refine ⟨p, ms, rfl, ?_, ?_⟩
          · rw [← listAt_frame hfr now]
            exact hl
          · show listAt (rgwlib.commit key p now s).2 now _ = _
            rw [hst]
            exact (LPUSH_listAt hl p).2
    · left
      have hqq : "queue:" ++ q ≠ "queue:" ++ key :=
        fun h => hk (prefix_cancel "queue:" q key h).symm
      exact commit_frame key p now s (hqr key) hqq

/-! ## Batched reads and acknowledgements -/

theorem lrangeSlice_all (xs : List String) : redis.lrangeSlice xs 0 (-1) = xs := by
  unfold redis.lrangeSlice
  cases xs with
  | nil => simp
  | cons x rest =>
    have h1 : ¬ ((0 : Int) > -1 + (((x :: rest).length : Nat) : Int) ∨
        (0 : Int) ≥ (((x :: rest).length : Nat) : Int)) := by
      simp only [List.length_cons]
      push_cast
      omega
    have h2 : ¬ (-1 + (((x :: rest).length : Nat) : Int)
        ≥ (((x :: rest).length : Nat) : Int)) := by omega
    have h3 : (-1 + (((x :: rest).length : Nat) : Int) - 0 + 1).toNat
        = (x :: rest).length := by
      have : -1 + (((x :: rest).length : Nat) : Int) - 0 + 1
          = (((x :: rest).length : Nat) : Int) := by omega
      rw [this]
      exact Int.toNat_ofNat _
    simp only [show ¬ ((0 : Int) < 0) from by decide, show ((-1 : Int) < 0) from by decide,
      if_true, if_false, h1, h2, h3, Int.toNat_zero, List.drop_zero, List.take_length]

theorem locked_read_multi_ok {s : Store} {now : Int} {key cookie : String}
    {ms : List String}
    (hl : (rgwlib.assert_lock ("lock:" ++ key) cookie now s).1 = .ok 0)
    (hm : listAt s now ("queue:" ++ key) = some ms) (count : Int) :
    rgwlib.locked_read_multi key cookie count now s
      = (.ok (.str (jsonArray (ms.reverse.take count.toNat))), s) := by
  have hst : (rgwlib.assert_lock ("lock:" ++ key) cookie now s).2 = s := by
    rw [assert_lock_run]
  unfold rgwlib.locked_read_multi
  rw [Script.bind_of_ok hl, hst]
  simp only [if_true]
  rw [Script.bind_run]
  unfold Script.bind redis.LRANGE
  unfold listAt at hm
  cases hk : lookupKey s now ("queue:" ++ key) with
  | none =>
    rw [hk] at hm
    have hx : ms = [] := by simpa using hm.symm
    subst hx
    simp
  | some e =>
    rw [hk] at hm
    rcases e with ⟨val, d⟩
    cases val with
    | str c => simp at hm
    | list ys =>
      have hx : ys = ms := by simpa using hm
      subst hx
      simp [lrangeSlice_all]

/-- Without the lock the batched read answers the lock status and leaves the
store. -/
theorem locked_read_multi_denied {s : Store} {now : Int} {key cookie : String}
    {c : Int} (hl : (rgwlib.assert_lock ("lock:" ++ key) cookie now s).1 = .ok c)
    (hc : c ≠ 0) (count : Int) :
    rgwlib.locked_read_multi key cookie count now s = (.ok (.num c), s) := by
  have hst : (rgwlib.assert_lock ("lock:" ++ key) cookie now s).2 = s := by
    rw [assert_lock_run]
  unfold rgwlib.locked_read_multi
  rw [Script.bind_of_ok hl, hst]
  simp [hc]

theorem rpopMany_frame (k : String) (n : Nat) (now : Int) (s : Store) {k2 : String}
    (hk : k2 ≠ k) : (rgwlib.rpopMany k n now s).2 k2 = s k2 := by
  induction n generalizing s with
  | zero => rfl
  | succ n ih =>
    unfold rgwlib.rpopMany
    rw [Script.bind_run]
    unfold Script.bind
    cases hp : redis.RPOP k now s with
    | mk r s1 =>
      have hs1 : s1 k2 = s k2 := by
        have := RPOP_frame k now s hk
        rw [hp] at this
        exact this
      cases r with
      | error e => exact hs1
      | ok v =>
        simp only []
        rw [ih, hs1]

theorem rpopMany_listOf {s : Store} {k : String} {ms : List String}
    (h : listOf s k = some ms) (n : Nat) (now : Int) :
    (rgwlib.rpopMany k n now s).1 = .ok () ∧
    listOf (rgwlib.rpopMany k n now s).2 k = some (ms.take (ms.length - n)) := by
  induction n generalizing s ms with
  | zero =>
    refine ⟨rfl, ?_⟩
    simpa [rgwlib.rpopMany] using h
  | succ n ih =>
    have hp := RPOP_listOf h now
    have hi := ih hp.2
    unfold rgwlib.rpopMany
    rw [Script.bind_of_ok hp.1]
    refine ⟨hi.1, ?_⟩
    rw [hi.2, List.dropLast_eq_take, List.take_take, List.length_take]
    congr 2
    omega

theorem locked_ack_multi_ok {s : Store} {now : Int} {key cookie : String}
    {ms : List String}
    (hl : (rgwlib.assert_lock ("lock:" ++ key) cookie now s).1 = .ok 0)
    (hm : listOf s ("queue:" ++ key) = some ms) (count : Int) :
    (rgwlib.locked_ack_multi key cookie count now s).1 = .ok 0 ∧
    listOf (rgwlib.locked_ack_multi key cookie count now s).2 ("queue:" ++ key)
      = some (ms.take (ms.length - count.toNat)) ∧
    ∀ k2 : String, k2 ≠ "queue:" ++ key →
      (rgwlib.locked_ack_multi key cookie count now s).2 k2 = s k2 := by
  have hst : (rgwlib.assert_lock ("lock:" ++ key) cookie now s).2 = s := by
    rw [assert_lock_run]
  have hr := rpopMany_listOf hm count.toNat now
  have hrun : rgwlib.locked_ack_multi key cookie count now s
      = (.ok 0, (rgwlib.rpopMany ("queue:" ++ key) count.toNat now s).2) := by
    unfold rgwlib.locked_ack_multi
    rw [Script.bind_of_ok hl, hst]
    simp only [if_true]
    rw [Script.bind_of_ok hr.1]
    rfl
  rw [hrun]
  exact ⟨rfl, hr.2, fun k2 hk => rpopMany_frame _ _ _ _ hk⟩

/-! ## Concrete instances of the queue theorems -/

theorem commit_releases_and_appends_witness :
    (listOf reservedStore ("reserve:" ++ "test_queue") = some ["r2", "r1"] ∧
      listOf reservedStore ("queue:" ++ "test_queue") = some ["m2", "m1"]) ∧
    (rgwlib.commit "test_queue" "m3" 5 reservedStore).1 = .ok 0 ∧
    listOf (rgwlib.commit "test_queue" "m3" 5 reservedStore).2
        ("reserve:" ++ "test_queue") = some ["r2", "r1"].dropLast ∧
    listOf (rgwlib.commit "test_queue" "m3" 5 reservedStore).2
        ("queue:" ++ "test_queue") = some ["m3", "m2", "m1"] :=
  have h := commit_releases_and_appends reservedStore 5 "test_queue" "m3"
    ["r2", "r1"] ["m2", "m1"] (by decide) (by decide)
  ⟨by decide, h.1, h.2.2.2.1, h.2.2.2.2.2.1⟩

theorem reserve_adds_one_witness :
    listOf reservedStore ("reserve:" ++ "test_queue") = some ["r2", "r1"] ∧
    (rgwlib.reserve "test_queue" 120 5 reservedStore).1 = .ok 0 ∧
    listOf (rgwlib.reserve "test_queue" 120 5 reservedStore).2
        ("reserve:" ++ "test_queue")
      = some [rgwlib.generateString 120, "r2", "r1"] ∧
    (redisqueue.reserve "test_queue" 5 reservedStore).1 = 0 :=
  have h := reserve_adds_one reservedStore 5 "test_queue" 120 ["r2", "r1"] (by decide)
  ⟨by decide, h.1, h.2.1, h.2.2.2.2.1⟩

theorem abort_releases_one_witness :
    (listOf reservedStore ("reserve:" ++ "test_queue") = some ["r2", "r1"] ∧
      listOf queueStore ("reserve:" ++ "test_queue") = some []) ∧
    (rgwlib.abort "test_queue" 5 reservedStore).1 = .ok 0 ∧
    listOf (rgwlib.abort "test_queue" 5 reservedStore).2
        ("reserve:" ++ "test_queue") = some ["r2", "r1"].dropLast ∧
    rgwlib.abort "test_queue" 5 queueStore = (.ok (-lerrorCodes.ENOENT), queueStore) :=
  have h := abort_releases_one reservedStore 5 "test_queue" ["r2", "r1"] (by decide)
  have h0 := abort_releases_one queueStore 5 "test_queue" [] (by decide)
  ⟨by decide, (h.1 (by decide)).1, (h.1 (by decide)).2.2.1, (h0.2.2.2.1 rfl).1⟩

theorem read_nondestructive_witness :
    listAt queueStore 5 ("queue:" ++ "test_queue") = some (["m2"] ++ ["m1"]) ∧
    (redisqueue.read "test_queue" 5 queueStore).1 = (0, "m1") ∧
    (rgwlib.read "test_queue" 5 queueStore).2 = queueStore ∧
    (redisqueue.read "other" 5 queueStore).1 = (0, "") :=
  ⟨by decide,
    (read_nondestructive queueStore 5 "test_queue").2.2.2.1 ["m2"] "m1" (by decide),
    (read_nondestructive queueStore 5 "test_queue").1,
    ((read_nondestructive queueStore 5 "other").2.2.2.2.1 (by decide)).2⟩

theorem read_fifo_witness :
    (listOf Store.empty ("reserve:" ++ "test_queue") = some [] ∧
      listOf Store.empty ("queue:" ++ "test_queue") = some [] ∧
      committed producerCalls = "p1" :: ["p2"]) ∧
    (rgwlib.read "test_queue" 9
      (runQueueCalls "test_queue" Store.empty producerCalls)).1 = .ok (.str "p1") ∧
    (redisqueue.read "test_queue" 9
      (runQueueCalls "test_queue" Store.empty producerCalls)).1 = (0, "p1") :=
  ⟨by decide,
    (read_fifo "test_queue" producerCalls Store.empty [] [] 9 (by decide)
      (by decide)).2.1 "p1" ["p2"] rfl (by decide)⟩

theorem round_trip_scenario_witness :
    (Store.empty ("reserve:" ++ "Q") = none ∧ Store.empty ("queue:" ++ "Q") = none) ∧
    roundTripTrace "Q" "m1" (fun i => 10 * (i : Int)) Store.empty
      = (0, (0, (1, 0)), 0, (0, (0, 1)), (0, "m1"), 0, (0, (0, 0)), (0, "")) :=
  ⟨by decide,
    round_trip_scenario "Q" "m1" (fun i => 10 * (i : Int)) Store.empty
      (by decide) (by decide)⟩

theorem ack_removes_oldest_witness :
    (listOf fencedStore ("queue:" ++ "test_queue") = some (["m2"] ++ ["m1"]) ∧
      (rgwlib.assert_lock ("lock:" ++ "test_queue") "mycookie" 1 fencedStore).1
        = .ok 0 ∧
      (rgwlib.assert_lock ("lock:" ++ "test_queue") "other" 1 fencedStore).1
        = .ok (-16)) ∧
    (redisqueue.read "test_queue" 1 fencedStore).1 = (0, "m1") ∧
    listOf (rgwlib.ack "test_queue" 1 fencedStore).2 ("queue:" ++ "test_queue")
      = some ["m2"] ∧
    (redisqueue.locked_ack "test_queue" "mycookie" 1 fencedStore).1 = 0 ∧
    redisqueue.locked_ack "test_queue" "other" 1 fencedStore = (-16, fencedStore) :=
  have h := ack_removes_oldest fencedStore 1 "test_queue" ["m2"] "m1" (by decide)
  ⟨by decide, h.1, h.2.2.2.1, (h.2.2.2.2.2.2.1 "mycookie" (by decide)).2,
    (h.2.2.2.2.2.2.2.1 "other" (-16) (by decide) (by decide)).2⟩

theorem messages_only_removed_by_ack_witness :
    ("lock:test_queue" ≠ "queue:" ++ "test_queue") ∧
    ((LibCall.lock "lock:test_queue" "other" 500).after 600 fencedStore
        ("queue:" ++ "test_queue") = fencedStore ("queue:" ++ "test_queue") ∨
      ∃ (p : String) (ms : List String),
        LibCall.lock "lock:test_queue" "other" 500 = .commit "test_queue" p ∧
        listAt fencedStore 600 ("queue:" ++ "test_queue") = some ms ∧
        listAt ((LibCall.lock "lock:test_queue" "other" 500).after 600 fencedStore)
          600 ("queue:" ++ "test_queue") = some (p :: ms)) :=
  ⟨by decide,
    (messages_only_removed_by_ack fencedStore 600 "test_queue"
      (.lock "lock:test_queue" "other" 500)
      (fun n h => by cases h; decide)).1⟩


/-! ## Queue status and transport errors -/

theorem LLEN_state (k : String) (now : Int) (s : Store) :
    (redis.LLEN k now s).2 = s := by
  unfold redis.LLEN
  cases h : lookupKey s now k with
  | none => rfl
  | some e =>
    rcases e with ⟨val, d⟩
    cases val <;> rfl

theorem LLEN_listAt {s : Store} {now : Int} {k : String} {xs : List String}
    (h : listAt s now k = some xs) :
    (redis.LLEN k now s).1 = .ok (xs.length : Int) := by
  unfold listAt at h
  unfold redis.LLEN
  cases hl : lookupKey s now k with
  | none =>
    rw [hl] at h
    have hx : xs = [] := by simpa using h.symm
    subst hx
    rfl
  | some e =>
    rw [hl] at h
    rcases e with ⟨val, d⟩
    cases val with
    | str c => simp at h
    | list ys =>
      have hx : ys = xs := by simpa using h
      subst hx
      rfl

/-- C22: a `queue_status(name)` call whose round-trip succeeds (`ec = 0`)
returns 0 and sets the result to (number of reservations under
`reserve:name`, number of messages under `queue:name`), which is (0, 0) for a
name never used; the `LLEN` commands it issues do not change the store; when
the round-trip fails (`ec ≠ 0`) it returns the non-zero code `-ec` and the
caller's tuple is as it was. -/
theorem queue_status_spec (s : Store) (now : Int) (name : String) (res : Int × Int) :
    (∀ rs ms : List String, listAt s now ("reserve:" ++ name) = some rs →
      listAt s now ("queue:" ++ name) = some ms →
      redisqueue.queue_status 0 name res now s
        = ((0, ((rs.length : Int), (ms.length : Int))), s)) ∧
    (s ("reserve:" ++ name) = none → s ("queue:" ++ name) = none →
      redisqueue.queue_status 0 name res now s = ((0, (0, 0)), s)) ∧
    (redis.LLEN ("reserve:" ++ name) now s).2 = s ∧
    (redis.LLEN ("queue:" ++ name) now s).2 = s ∧
    (∀ ec : Int, ec ≠ 0 →
      redisqueue.queue_status ec name res now s = ((-ec, res), s) ∧ -ec ≠ 0) := by
  have hmain : ∀ rs ms : List String, listAt s now ("reserve:" ++ name) = some rs →
      listAt s now ("queue:" ++ name) = some ms →
      redisqueue.queue_status 0 name res now s
        = ((0, ((rs.length : Int), (ms.length : Int))), s) := by
    intro rs ms hr hm
    unfold redisqueue.queue_status
    rw [LLEN_listAt hr, LLEN_listAt hm]
    simp
  refine ⟨hmain, ?_, LLEN_state _ _ _, LLEN_state _ _ _, ?_⟩
  · intro hr hm
    have h1 := listAt_of_listOf (listOf_absent hr) now
    have h2 := listAt_of_listOf (listOf_absent hm) now
    simpa using hmain [] [] h1 h2
  · intro ec hec
    refine ⟨?_, by omega⟩
    unfold redisqueue.queue_status
    simp [hec]

/-- A successful reply whose payload parses to a JSON value that is not an
array makes the batch `locked_read` return -EINVAL and leave the vector. -/
theorem locked_read_multi_not_array (parse : String → Option Json)
    (ret : RedisResponse) (res : List String) (v : Json)
    (hcode : ret.errorCode = 0) (hparse : parse ret.data = some v)
    (hv : ∀ xs : List Json, v ≠ .arr xs) :
    redisqueue.locked_read_multi parse ret res = (.ok (-22), res) := by
  unfold redisqueue.locked_read_multi
  rw [if_pos hcode, hparse]
  cases v with
  | arr xs => exact absurd rfl (hv xs)
  | null => rfl
  | bool b => rfl
  | num n => rfl
  | str s => rfl
  | obj kvs => rfl

/-- C23 (the code at the failing inputs): with a reply reported as successful,
text that is not JSON makes `parse` throw, and an array with a non-string
element makes `as_string()` throw after the strings before it were appended;
in both cases the function is left by the exception and does not return
-EINVAL.  A JSON number, string or object does give -EINVAL. -/
theorem batch_decoding_throws :
    redisqueue.locked_read_multi demoParse ⟨0, "", "oops"⟩ ["old"]
      = (.error "parse: not JSON", ["old"]) ∧
    redisqueue.locked_read_multi demoParse ⟨0, "", "[\"m1\",7]"⟩ ["old"]
      = (.error "as_string: not a string", ["old", "m1"]) ∧
    redisqueue.locked_read_multi demoParse ⟨0, "", "7"⟩ ["old"]
      = (.ok (-22), ["old"]) ∧
    redisqueue.locked_read_multi demoParse ⟨0, "", "\"m1\""⟩ ["old"]
      = (.ok (-22), ["old"]) ∧
    redisqueue.locked_read_multi demoParse ⟨0, "", "\x7b\x7d"⟩ ["old"]
      = (.ok (-22), ["old"]) := by
  refine ⟨by decide, by decide, by decide, by decide, by decide⟩

/-- C24 (counterexample): for the transport error code 16, `queue_status`
returns -16, which is the logical status -EBUSY. -/
theorem queue_status_transport_collides :
    (redisqueue.queue_status 16 "test_queue" (0, 0) 0 Store.empty).1.1
      = -lerrorCodes.EBUSY := by
  decide

/-- C24 (as amended): for every non-zero transport error code `ec` (an `int`
other than the least one), `queue_status` returns `-ec` and `loadLuaFunctions`
returns `ec`, both non-zero; a positive `ec` returned by `loadLuaFunctions` is
none of the logical status codes; and `-ec` is one of the logical status codes
exactly when `ec` is 2, 16, 12 or 22. -/
theorem transport_codes_nonzero (ec : Int) (hec : ec ≠ 0)
    (_hlo : -(2 ^ 31) < ec) (_hhi : ec < 2 ^ 31)
    (name : String) (res : Int × Int) (now : Int) (s : Store)
    (resp : Except String String) :
    (redisqueue.queue_status ec name res now s).1.1 = -ec ∧
    -ec ≠ 0 ∧
    loadLuaFunctions ec resp = .ok ec ∧
    (0 < ec → ec ∉ logicalCodes) ∧
    (-ec ∈ logicalCodes ↔ ec = 2 ∨ ec = 16 ∨ ec = 12 ∨ ec = 22) := by
  refine ⟨?_, by omega, ?_, ?_, ?_⟩
  · unfold redisqueue.queue_status
    simp [hec]
  · unfold loadLuaFunctions
    simp [hec]
  · intro hpos hmem
    simp [logicalCodes, lerrorCodes.ENOENT, lerrorCodes.EBUSY, lerrorCodes.ENOMEM] at hmem
    omega
  · simp [logicalCodes, lerrorCodes.ENOENT, lerrorCodes.EBUSY, lerrorCodes.ENOMEM]

/-! ## Renewal and retry -/

/-- C25 (counterexample): `lock` at time 0 and again at time 500 with ttl 1000
puts the deadline at 1500, so at time 1600, which lies between `ttl` and
`2 * ttl`, `assert_lock` answers -ENOENT. -/
theorem renewal_window_ends_early :
    (rgwlib.lock "lock:renew" "mycookie" 1000 0 Store.empty).1 = .ok 0 ∧
    (rgwlib.lock "lock:renew" "mycookie" 1000 (0 + 1000 / 2)
      (rgwlib.lock "lock:renew" "mycookie" 1000 0 Store.empty).2).1 = .ok 0 ∧
    ((0 : Int) + 1000 < 1600 ∧ (1600 : Int) < 0 + 2 * 1000) ∧
    (rgwlib.assert_lock "lock:renew" "mycookie" 1600
      (rgwlib.lock "lock:renew" "mycookie" 1000 (0 + 1000 / 2)
        (rgwlib.lock "lock:renew" "mycookie" 1000 0 Store.empty).2).2).1
      = .ok (-lerrorCodes.ENOENT) := by
  refine ⟨by decide, by decide, by decide, by decide⟩

/-- C25 (as amended): if `lock(name, cookie, ttl)` with a positive ttl succeeds
at `t0` and is called again by the same cookie at `t0 + ttl / 2`, the second
call answers 0 and moves the deadline to `t0 + ttl / 2 + ttl`; `assert_lock`
then answers 0 at every time up to that deadline, which covers the times
after the original deadline `t0 + ttl` up to `t0 + ttl / 2 + ttl`, and
-ENOENT at every later time. -/
theorem renewal_window (s : Store) (name cookie : String) (ttl t0 : Int)
    (httl : 0 < ttl) (hok : (rgwlib.lock name cookie ttl t0 s).1 = .ok 0) :
    (rgwlib.lock name cookie ttl (t0 + ttl / 2) (rgwlib.lock name cookie ttl t0 s).2).1
      = .ok 0 ∧
    (rgwlib.lock name cookie ttl (t0 + ttl / 2) (rgwlib.lock name cookie ttl t0 s).2).2
        name = some ⟨.str cookie, some (t0 + ttl / 2 + ttl)⟩ ∧
    (∀ t : Int, t ≤ t0 + ttl / 2 + ttl →
      (rgwlib.assert_lock name cookie t
        (rgwlib.lock name cookie ttl (t0 + ttl / 2)
          (rgwlib.lock name cookie ttl t0 s).2).2).1 = .ok 0) ∧
    (∀ t : Int, t0 + ttl / 2 + ttl < t →
      (rgwlib.assert_lock name cookie t
        (rgwlib.lock name cookie ttl (t0 + ttl / 2)
          (rgwlib.lock name cookie ttl t0 s).2).2).1 = .ok (-lerrorCodes.ENOENT)) := by
  have ht : ¬ ttl ≤ 0 := not_le.mpr httl
  have hhalf : 0 ≤ ttl / 2 := Int.ediv_nonneg (le_of_lt httl) (by decide)
  have hhalf2 : ttl / 2 ≤ ttl := Int.ediv_le_self 2 (le_of_lt httl)
  have hs1 := lock_ok_store httl hok
  have hrec1 : (rgwlib.lock name cookie ttl t0 s).2 name
      = some ⟨.str cookie, some (t0 + ttl)⟩ := by
    rw [hs1]; simp
  have hl1 : lookupKey (rgwlib.lock name cookie ttl t0 s).2 (t0 + ttl / 2) name
      = some ⟨.str cookie, some (t0 + ttl)⟩ :=
    lookupKey_eq_some.mpr ⟨hrec1, live_deadline (by omega)⟩
  have h2 : rgwlib.lock name cookie ttl (t0 + ttl / 2) (rgwlib.lock name cookie ttl t0 s).2
      = (.ok 0, Function.update (rgwlib.lock name cookie ttl t0 s).2 name
          (some ⟨.str cookie, some (t0 + ttl / 2 + ttl)⟩)) := by
    rw [lock_run, hl1]
    simp [lockOutcome, ht]
  have hrec2 : (rgwlib.lock name cookie ttl (t0 + ttl / 2)
      (rgwlib.lock name cookie ttl t0 s).2).2 name
      = some ⟨.str cookie, some (t0 + ttl / 2 + ttl)⟩ := by
    rw [h2]; simp
  refine ⟨by rw [h2], hrec2, ?_, ?_⟩
  · intro t hle
    rw [assert_ok_of_record hrec2 (live_deadline hle)]
  · intro t hlt
    have hdead : Entry.live t ⟨.str cookie, some (t0 + ttl / 2 + ttl)⟩ = false := by
      simp [Entry.live, hlt]
    rw [assert_lock_run, lookupKey_eq_none.mpr (Or.inr ⟨_, hrec2, hdead⟩)]
    simp [assertOutcome, lerrorCodes.ENOENT]

/-- C26: for every state, lock name, cookie and positive ttl, a second
`lock(name, cookie, ttl)` at the same instant answers what the first answered
and leaves the store the first left, whether the first call acquired, renewed
or was refused. -/
theorem lock_retry_idempotent (s : Store) (name cookie : String) (ttl now : Int)
    (httl : 0 < ttl) :
    rgwlib.lock name cookie ttl now (rgwlib.lock name cookie ttl now s).2
      = rgwlib.lock name cookie ttl now s := by
  have ht : ¬ ttl ≤ 0 := not_le.mpr httl
  have hnew : lookupKey (Function.update s name
      (some ⟨.str cookie, some (now + ttl)⟩)) now name
      = some ⟨.str cookie, some (now + ttl)⟩ :=
    lookupKey_update_same s now name _ (live_deadline (by omega))
  rw [lock_run name cookie ttl now s]
  cases h : lookupKey s now name with
  | none =>
    simp only [lockOutcome, ht, if_false]
    rw [lock_run, hnew]
    simp [lockOutcome, ht]
  | some e =>
    rcases e with ⟨val, d⟩
    cases val with
    | list xs =>
      simp only [lockOutcome]
      rw [lock_run, h]
      simp [lockOutcome]
    | str v =>
      by_cases hv : v = cookie
      · subst hv
        simp only [lockOutcome, ht, if_true, if_false]
        rw [lock_run, hnew]
        simp [lockOutcome, ht]
      · simp only [lockOutcome, hv, if_false]
        rw [lock_run, h]
        simp [lockOutcome, hv]

/-! ## The reservation placeholder -/

theorem foldl_append_length (l : List String) (acc : String) :
    (l.foldl (fun r s => r ++ s) acc).length
      = acc.length + (l.map String.length).sum := by
  induction l generalizing acc with
  | nil => simp
  | cons x xs ih =>
    simp only [List.foldl_cons, List.map_cons, List.sum_cons]
    rw [ih, String.length_append]
    omega

theorem join_replicate_length (k : Nat) (c : String) :
    (String.join (List.replicate k c)).length = k * c.length := by
  unfold String.join
  rw [foldl_append_length]
  simp

theorem luaCeilDiv_eq_ceil (n : Int) :
    luaCeilDiv n 62 = Int.ceil ((n : ℚ) / 62) := by
  unfold luaCeilDiv
  symm
  rw [Int.ceil_eq_iff]
  have h1 := Int.ediv_add_emod (-n) 62
  have h2 := Int.emod_nonneg (-n) (show (62 : Int) ≠ 0 by decide)
  have h3 := Int.emod_lt_of_pos (-n) (show (0 : Int) < 62 by decide)
  constructor
  · rw [lt_div_iff₀ (by norm_num)]
    have : (-(-n / 62) - 1) * 62 < n := by omega
    exact_mod_cast this
  · rw [div_le_iff₀ (by norm_num)]
    have : n ≤ (-(-n / 62)) * 62 := by omega
    exact_mod_cast this

theorem generateString_120 : (rgwlib.generateString 120).length = 186 := by
  decide

/-- C28: for every integer `n ≥ 0`, `generateString(n)` is the 62-character
charset repeated `ceil(n / 62) + 1` times, so its length is exactly
`62 * (ceil(n / 62) + 1)`, at least `n + 62` and strictly more than `n`; for
the client's reservation size 120 it has 186 characters. -/
theorem generateString_length (n : Int) (hn : 0 ≤ n) :
    rgwlib.charset.length = 62 ∧
    luaCeilDiv n 62 = Int.ceil ((n : ℚ) / 62) ∧
    rgwlib.generateString n
      = String.join (List.replicate (luaCeilDiv n 62 + 1).toNat rgwlib.charset) ∧
    ((rgwlib.generateString n).length : Int) = 62 * (luaCeilDiv n 62 + 1) ∧
    n + 62 ≤ ((rgwlib.generateString n).length : Int) ∧
    n < ((rgwlib.generateString n).length : Int) ∧
    (rgwlib.generateString 120).length = 186 := by
  have hc : rgwlib.charset.length = 62 := by decide
  have hgen : rgwlib.generateString n
      = String.join (List.replicate (luaCeilDiv n 62 + 1).toNat rgwlib.charset) := by
    unfold rgwlib.generateString
    simp only [hc]
    rfl
  have h1 := Int.ediv_add_emod (-n) 62
  have h2 := Int.emod_nonneg (-n) (show (62 : Int) ≠ 0 by decide)
  have h3 := Int.emod_lt_of_pos (-n) (show (0 : Int) < 62 by decide)
  have hnonneg : 0 ≤ luaCeilDiv n 62 + 1 := by
    unfold luaCeilDiv
    omega
  have hlen : ((rgwlib.generateString n).length : Int) = 62 * (luaCeilDiv n 62 + 1) := by
    rw [hgen, join_replicate_length, hc]
    push_cast
    rw [Int.toNat_of_nonneg hnonneg]
    ring
  have h186 : (rgwlib.generateString 120).length = 186 := generateString_120
  refine ⟨hc, luaCeilDiv_eq_ceil n, hgen, hlen, ?_, ?_, h186⟩
  · rw [hlen]
    unfold luaCeilDiv
    omega
  · rw [hlen]
    unfold luaCeilDiv
    omega

/-! ## The result vector of a batched read -/

theorem pushElements_strings (strs res : List String) :
    pushElements (strs.map Json.str) res = (.ok (), res ++ strs.map c_str) := by
  induction strs generalizing res with
  | nil => simp [pushElements]
  | cons x xs ih =>
    simp only [List.map_cons, pushElements]
    rw [ih]
    simp

theorem c_str_of_no_nul (s : String) (h : ∀ c ∈ s.data, c ≠ Char.ofNat 0) :
    c_str s = s := by
  unfold c_str
  have : s.data.takeWhile (fun c => decide (c ≠ Char.ofNat 0)) = s.data := by
    rw [List.takeWhile_eq_self_iff]
    intro c hc
    simpa using h c hc
  rw [this]

/-- A successful reply that parses to an array of strings appends them, each
as the C string it starts with, to the vector; strings without a NUL character
are appended unchanged. -/
theorem locked_read_multi_strings (parse : String → Option Json)
    (ret : RedisResponse) (res strs : List String)
    (hcode : ret.errorCode = 0)
    (hparse : parse ret.data = some (.arr (strs.map Json.str))) :
    redisqueue.locked_read_multi parse ret res = (.ok 0, res ++ strs.map c_str) ∧
    ((∀ x ∈ strs, ∀ c ∈ x.data, c ≠ Char.ofNat 0) →
      redisqueue.locked_read_multi parse ret res = (.ok 0, res ++ strs)) := by
  have h1 : redisqueue.locked_read_multi parse ret res
      = (.ok 0, res ++ strs.map c_str) := by
    unfold redisqueue.locked_read_multi
    rw [if_pos hcode, hparse]
    simp only [pushElements_strings, hcode]
  refine ⟨h1, ?_⟩
  intro hnul
  rw [h1]
  have : strs.map c_str = strs := by
    conv_rhs => rw [← List.map_id strs]
    apply List.map_congr_left
    intro x hx
    simpa using c_str_of_no_nul x (hnul x hx)
  rw [this]

/-- A reply carrying a lock error leaves the vector as it was. -/
theorem locked_read_multi_lock_error (parse : String → Option Json)
    (ret : RedisResponse) (res : List String) (hcode : ret.errorCode ≠ 0) :
    redisqueue.locked_read_multi parse ret res = (.ok ret.errorCode, res) := by
  unfold redisqueue.locked_read_multi
  rw [if_neg hcode]

/-- C29 (the code at the failing input): the successful reply is the JSON
array of the one string `a`, NUL, `b`; the vector `["old"]` becomes
`["old", "a"]`, not `["old"]` followed by that string.  An array of strings
without NUL is appended whole, and a lock error or a reply that is not an
array leaves the vector as it was. -/
theorem batch_append_cuts_at_nul :
    demoParse "[\"a\\u0000b\"]" = some (.arr (["a\x00b"].map Json.str)) ∧
    redisqueue.locked_read_multi demoParse ⟨0, "", "[\"a\\u0000b\"]"⟩ ["old"]
      = (.ok 0, ["old", "a"]) ∧
    ["old", "a"] ≠ ["old"] ++ ["a\x00b"] ∧
    redisqueue.locked_read_multi demoParse ⟨0, "", "[\"m1\",\"m2\"]"⟩ ["old"]
      = (.ok 0, ["old", "m1", "m2"]) ∧
    redisqueue.locked_read_multi demoParse ⟨-16, "", ""⟩ ["old"]
      = (.ok (-16), ["old"]) ∧
    redisqueue.locked_read_multi demoParse ⟨0, "", "7"⟩ ["old"]
      = (.ok (-22), ["old"]) := by
  refine ⟨rfl, by decide, by decide, by decide, by decide, by decide⟩

/-! ## Queue isolation -/

/-- C30: for distinct queue names `q1 ≠ q2` and every state, `reserve`,
`unreserve`, `commit`, `read` and `locked_read` on `q1` leave the entries of
the reservation list and of the message list of `q2` unchanged, and `reserve`
and `unreserve` on `q1` leave the message list of `q1` unchanged; the keys
`reserve:q1` and `queue:q1` differ from `reserve:q2` and `queue:q2` and from
each other. -/
theorem queue_isolation (s : Store) (now : Int) (q1 q2 : String) (hne : q1 ≠ q2) :
    ("reserve:" ++ q1 ≠ "reserve:" ++ q2 ∧ "queue:" ++ q1 ≠ "queue:" ++ q2 ∧
      "reserve:" ++ q1 ≠ "queue:" ++ q2 ∧ "queue:" ++ q1 ≠ "reserve:" ++ q2 ∧
      "reserve:" ++ q1 ≠ "queue:" ++ q1) ∧
    (∀ size : Int,
      (rgwlib.reserve q1 size now s).2 ("reserve:" ++ q2) = s ("reserve:" ++ q2) ∧
      (rgwlib.reserve q1 size now s).2 ("queue:" ++ q2) = s ("queue:" ++ q2) ∧
      (rgwlib.reserve q1 size now s).2 ("queue:" ++ q1) = s ("queue:" ++ q1)) ∧
    ((rgwlib.unreserve q1 now s).2 ("reserve:" ++ q2) = s ("reserve:" ++ q2) ∧
      (rgwlib.unreserve q1 now s).2 ("queue:" ++ q2) = s ("queue:" ++ q2) ∧
      (rgwlib.unreserve q1 now s).2 ("queue:" ++ q1) = s ("queue:" ++ q1)) ∧
    (∀ payload : String,
      (rgwlib.commit q1 payload now s).2 ("reserve:" ++ q2) = s ("reserve:" ++ q2) ∧
      (rgwlib.commit q1 payload now s).2 ("queue:" ++ q2) = s ("queue:" ++ q2)) ∧
    (rgwlib.read q1 now s).2 = s ∧
    (∀ cookie : String, (rgwlib.locked_read q1 cookie now s).2 = s) := by
  have hrr : "reserve:" ++ q2 ≠ "reserve:" ++ q1 :=
    fun h => hne (prefix_cancel "reserve:" q2 q1 h).symm
  have hqq : "queue:" ++ q2 ≠ "queue:" ++ q1 :=
    fun h => hne (prefix_cancel "queue:" q2 q1 h).symm
  have hqr : "queue:" ++ q2 ≠ "reserve:" ++ q1 := (reserve_ne_queue q1 q2).symm
  have hrq : "reserve:" ++ q2 ≠ "queue:" ++ q1 := reserve_ne_queue q2 q1
  have hq1 : "queue:" ++ q1 ≠ "reserve:" ++ q1 := (reserve_ne_queue q1 q1).symm
  refine ⟨⟨hrr.symm, hqq.symm, hqr.symm, hrq.symm, hq1.symm⟩, ?_, ?_, ?_,
    read_state q1 now s, fun cookie => locked_read_state q1 cookie now s⟩
  · intro size
    exact ⟨reserve_frame q1 size now s hrr, reserve_frame q1 size now s hqr,
      reserve_frame q1 size now s hq1⟩
  · exact ⟨unreserve_frame q1 now s hrr, unreserve_frame q1 now s hqr,
      unreserve_frame q1 now s hq1⟩
  · intro payload
    exact ⟨commit_frame q1 payload now s hrr hrq, commit_frame q1 payload now s hqr hqq⟩

/-! ## Concrete instances of the later theorems -/

theorem queue_status_spec_witness :
    (listAt reservedStore 5 ("reserve:" ++ "test_queue") = some ["r2", "r1"] ∧
      listAt reservedStore 5 ("queue:" ++ "test_queue") = some ["m2", "m1"]) ∧
    redisqueue.queue_status 0 "test_queue" (-1, -1) 5 reservedStore
      = ((0, (2, 2)), reservedStore) ∧
    redisqueue.queue_status 0 "never_used" (-1, -1) 5 reservedStore
      = ((0, (0, 0)), reservedStore) ∧
    redisqueue.queue_status 111 "test_queue" (-1, -1) 5 reservedStore
      = ((-111, (-1, -1)), reservedStore) :=
  ⟨by decide,
    (queue_status_spec reservedStore 5 "test_queue" (-1, -1)).1 ["r2", "r1"]
      ["m2", "m1"] (by decide) (by decide),
    (queue_status_spec reservedStore 5 "never_used" (-1, -1)).2.1 (by decide)
      (by decide),
    ((queue_status_spec reservedStore 5 "test_queue" (-1, -1)).2.2.2.2 111
      (by decide)).1⟩

theorem transport_codes_nonzero_witness :
    ((111 : Int) ≠ 0 ∧ -(2 ^ 31) < (111 : Int) ∧ (111 : Int) < 2 ^ 31) ∧
    (redisqueue.queue_status 111 "test_queue" (0, 0) 0 Store.empty).1.1 = -111 ∧
    loadLuaFunctions 111 (.ok "rgwlib") = .ok 111 ∧
    (111 : Int) ∉ logicalCodes :=
  have h := transport_codes_nonzero 111 (by decide) (by decide) (by decide)
    "test_queue" (0, 0) 0 Store.empty (.ok "rgwlib")
  ⟨by decide, h.1, h.2.2.1, h.2.2.2.1 (by decide)⟩

theorem renewal_window_witness :
    ((0 : Int) < 1000 ∧
      (rgwlib.lock "lock:renew" "mycookie" 1000 0 Store.empty).1 = .ok 0 ∧
      (1400 : Int) ≤ 0 + 1000 / 2 + 1000) ∧
    (rgwlib.assert_lock "lock:renew" "mycookie" 1400
      (rgwlib.lock "lock:renew" "mycookie" 1000 (0 + 1000 / 2)
        (rgwlib.lock "lock:renew" "mycookie" 1000 0 Store.empty).2).2).1 = .ok 0 :=
  ⟨by decide,
    (renewal_window Store.empty "lock:renew" "mycookie" 1000 0 (by decide)
      (by decide)).2.2.1 1400 (by decide)⟩

theorem lock_retry_idempotent_witness :
    (0 : Int) < 500 ∧
    rgwlib.lock "lock:test_queue" "other" 500 100
        (rgwlib.lock "lock:test_queue" "other" 500 100 fencedStore).2
      = rgwlib.lock "lock:test_queue" "other" 500 100 fencedStore ∧
    rgwlib.lock "lock:new" "other" 500 100
        (rgwlib.lock "lock:new" "other" 500 100 fencedStore).2
      = rgwlib.lock "lock:new" "other" 500 100 fencedStore :=
  ⟨by decide,
    lock_retry_idempotent fencedStore "lock:test_queue" "other" 500 100 (by decide),
    lock_retry_idempotent fencedStore "lock:new" "other" 500 100 (by decide)⟩

theorem generateString_length_witness :
    (0 : Int) ≤ 120 ∧
    ((rgwlib.generateString 120).length : Int) = 62 * (luaCeilDiv 120 62 + 1) ∧
    (120 : Int) < ((rgwlib.generateString 120).length : Int) :=
  have h := generateString_length 120 (by decide)
  ⟨by decide, h.2.2.2.1, h.2.2.2.2.2.1⟩

theorem queue_isolation_witness :
    "test_queue" ≠ "other_queue" ∧
    (rgwlib.commit "other_queue" "x" 5 reservedStore).2 ("queue:" ++ "test_queue")
      = reservedStore ("queue:" ++ "test_queue") ∧
    (rgwlib.unreserve "other_queue" 5 reservedStore).2 ("reserve:" ++ "test_queue")
      = reservedStore ("reserve:" ++ "test_queue") :=
  have h := queue_isolation reservedStore 5 "other_queue" "test_queue" (by decide)
  ⟨by decide, (h.2.2.2.1 "x").2, h.2.2.1.1⟩

/-! ## Batched reads through the client -/

/-- End to end.  Let the queue hold `ms` (newest first) and let `cookie` hold
`lock:key` unexpired at `now`; after producer calls that commit
`committed calls` in that order the messages oldest first are
`ms.reverse ++ committed calls`.  The procedure answers the JSON array of
their first `count` and leaves the store; when the JSON reader gives that
array back, the client appends to its vector the C string each of them starts
with, which is the message itself when it has no NUL character.
`locked_ack_batch(key, cookie, k)` returns 0, removes exactly the `k` oldest
and leaves the others in order, and the client call leaves the same store. -/
theorem batch_end_to_end (parse : String → Option Json) (key cookie : String)
    (calls : List (Int × QueueCall)) (s : Store) (rs ms : List String)
    (d : Option Int) (now : Int) (res : List String)
    (hr : listOf s ("reserve:" ++ key) = some rs)
    (hm : listOf s ("queue:" ++ key) = some ms)
    (hlock : s ("lock:" ++ key) = some ⟨.str cookie, d⟩)
    (hlive : Entry.live now ⟨.str cookie, d⟩ = true) :
    (∀ count : Int,
      rgwlib.locked_read_multi key cookie count now (runQueueCalls key s calls)
        = (.ok (.str (jsonArray
              ((ms.reverse ++ committed calls).take count.toNat))),
            runQueueCalls key s calls)) ∧
    (∀ count : Int,
      parse (jsonArray ((ms.reverse ++ committed calls).take count.toNat))
        = some (.arr (((ms.reverse ++ committed calls).take count.toNat).map
            Json.str)) →
      redisqueue.locked_read_multi_call parse key cookie count res now
          (runQueueCalls key s calls)
        = ((.ok 0, res
            ++ ((ms.reverse ++ committed calls).take count.toNat).map c_str),
            runQueueCalls key s calls) ∧
      ((∀ x ∈ (ms.reverse ++ committed calls).take count.toNat,
          ∀ c ∈ x.data, c ≠ Char.ofNat 0) →
        redisqueue.locked_read_multi_call parse key cookie count res now
            (runQueueCalls key s calls)
          = ((.ok 0, res ++ (ms.reverse ++ committed calls).take count.toNat),
              runQueueCalls key s calls))) ∧
    (∀ k : Nat,
      (rgwlib.locked_ack_multi key cookie k now (runQueueCalls key s calls)).1 = .ok 0 ∧
      redisqueue.locked_ack_multi key cookie k now (runQueueCalls key s calls)
        = (0, (rgwlib.locked_ack_multi key cookie k now
            (runQueueCalls key s calls)).2) ∧
      listOf (rgwlib.locked_ack_multi key cookie k now (runQueueCalls key s calls)).2
          ("queue:" ++ key)
        = some ((ms.reverse ++ committed calls).drop k).reverse ∧
      ((ms.reverse ++ committed calls).drop k).length
        = (ms.reverse ++ committed calls).length - k) := by
  have hrun := (runQueueCalls_listOf key calls s rs ms hr hm).2
  have hlk : runQueueCalls key s calls ("lock:" ++ key) = some ⟨.str cookie, d⟩ := by
    rw [runQueueCalls_frame key calls s (lock_ne_reserve key key) (lock_ne_queue key key)]
    exact hlock
  have hassert : (rgwlib.assert_lock ("lock:" ++ key) cookie now
      (runQueueCalls key s calls)).1 = .ok 0 := by
    rw [assert_ok_of_record hlk hlive]
  have hread : ∀ count : Int,
      rgwlib.locked_read_multi key cookie count now (runQueueCalls key s calls)
        = (.ok (.str (jsonArray
              ((ms.reverse ++ committed calls).take count.toNat))),
            runQueueCalls key s calls) := by
    intro count
    rw [locked_read_multi_ok hassert (listAt_of_listOf hrun now) count]
    simp
  refine ⟨hread, ?_, ?_⟩
  · intro count hparse
    have hdec := locked_read_multi_strings parse
      (do_redis_func (.ok (.str (jsonArray
        ((ms.reverse ++ committed calls).take count.toNat))))) res
      ((ms.reverse ++ committed calls).take count.toNat) rfl hparse
    have hcall : redisqueue.locked_read_multi_call parse key cookie count res now
        (runQueueCalls key s calls)
        = (redisqueue.locked_read_multi parse (do_redis_func (.ok (.str (jsonArray
            ((ms.reverse ++ committed calls).take count.toNat))))) res,
            runQueueCalls key s calls) := by
      unfold redisqueue.locked_read_multi_call
      rw [hread count]
    refine ⟨?_, ?_⟩
    · rw [hcall, hdec.1]
    · intro hnul
      rw [hcall, hdec.2 hnul]
  · intro k
    have hack := locked_ack_multi_ok hassert hrun (k : Int)
    refine ⟨hack.1, ?_, ?_, List.length_drop _ _⟩
    · unfold redisqueue.locked_ack_multi
      exact Prod.ext (client_code_of_ok hack.1) rfl
    · rw [hack.2.1, List.reverse_drop]
      simp
      omega

/-- C20 (the code at the failing input): `mycookie` holds `lock:test_queue`
and the one payload `a`, NUL, `b` is committed to the empty queue; the batched
read with count 1 answers the JSON array of that payload, and the client
returns 0 with the vector `["a"]`, not the committed payload.  Payloads without
NUL (`m1`, `m2`) come back exactly, in commit order, and the batched
acknowledgement of one message leaves `m2`. -/
theorem batch_read_cuts_payload_at_nul :
    committed nulCalls = ["a\x00b"] ∧
    (rgwlib.locked_read_multi "test_queue" "mycookie" 1 9
      (runQueueCalls "test_queue" lockedEmptyStore nulCalls)).1
      = .ok (.str "[\"a\\u0000b\"]") ∧
    (redisqueue.locked_read_multi_call demoParse "test_queue" "mycookie" 1 [] 9
      (runQueueCalls "test_queue" lockedEmptyStore nulCalls)).1 = (.ok 0, ["a"]) ∧
    ["a"] ≠ committed nulCalls ∧
    (redisqueue.locked_read_multi_call demoParse "test_queue" "mycookie" 2 [] 9
      (runQueueCalls "test_queue" lockedEmptyStore twoCommits)).1
      = (.ok 0, committed twoCommits) ∧
    listOf (rgwlib.locked_ack_multi "test_queue" "mycookie" 1 9
      (runQueueCalls "test_queue" lockedEmptyStore twoCommits)).2
      "queue:test_queue" = some ["m2"] := by
  refine ⟨by decide, by decide, by decide, by decide, by decide, by decide⟩

end RgwRedis
